import Mathlib

/-!
# Verification of the optimistic cache and synchronization engine

Shallow embedding of the client-side optimistic cache / synchronization core
of the file-picker application: the state store (sync state, delete queue,
optimistic delete registry, optimistic folder registry, resource caches),
the status resolver, the delete-queue drain, the KB-creation orchestrator
(optimistic phase, success migration, error rollback), cache persistence,
and the polling reconciler's stop and error-notification logic.

Conventions of the embedding:
* JavaScript objects used as keyed maps become insertion-ordered association
  lists (`List (κ × value)`); `setQueryData` / object assignment replaces the
  value in place for an existing key and appends for a new key, matching JS
  insertion-order semantics that `Object.values` iteration relies on.
* Nullable strings become `Option String`; JS string truthiness (`null`,
  `undefined` and `""` are falsy) is `strTruthy`.
* Wall-clock values (`Date.now()`) are threaded as explicit `Nat` arguments;
  they never influence control flow in the modelled code.
* Statuses stay strings, as in the source; the resolver's result encodes the
  source's value space: `none` for JS `null`, `some none` for a record with
  an undefined status, `some (some s)` for status `s` (with `"-"` the
  deleted sentinel).
-/

namespace StackAI

/-- A file or directory record, `FileItem` of the source. -/
structure FileItem where
  id : String
  name : String
  ftype : String
  size : Nat
  status : Option String
  deriving Repr, DecidableEq

/-- An entry of the optimistic delete registry (`OptimisticDeleteEntry`). -/
structure OptimisticDeleteEntry where
  fileId : String
  fileName : String
  kbId : String
  timestamp : Nat
  locked : Bool
  deriving Repr, DecidableEq

/-- An entry of the optimistic folder registry (`OptimisticFolderEntry`). -/
structure OptimisticFolderEntry where
  kbId : String
  folderId : String
  folderPath : String
  createdAt : Nat
  rootFolderIds : List String
  deriving Repr, DecidableEq

/-- A queued deletion (`DeleteRequest`). -/
structure DeleteRequest where
  id : String
  fileId : String
  fileName : String
  resourcePath : String
  kbId : String
  timestamp : Nat
  deriving Repr, DecidableEq

/-- The sync state record (`SyncStateData`); `lastUpdated` is abstracted. -/
structure SyncStateData where
  state : String
  kbId : Option String
  deriving Repr, DecidableEq

/-- JS truthiness of a nullable string: `null`/`undefined` and `""` are falsy. -/
def strTruthy : Option String → Bool
  | none => false
  | some s => !(s == "")

/-- `s.startsWith pre`, phrased over the character lists so the kernel can
evaluate it (`String.startsWith` itself is defined by well-founded recursion
over byte positions and does not reduce). -/
def strStartsWith (s pre : String) : Bool :=
  pre.data.isPrefixOf s.data

/-- `s.includes(c)` for a single character, over the character list. -/
def strContainsChar (s : String) (c : Char) : Bool :=
  s.data.contains c

/-- Character-level worker for `splitOnSlash`. -/
def splitOnSlashGo : List Char → List Char → List String
  | [], acc => [String.mk acc.reverse]
  | c :: cs, acc =>
    if c = '/' then String.mk acc.reverse :: splitOnSlashGo cs []
    else splitOnSlashGo cs (c :: acc)

/-- `s.split("/")`, kernel-evaluable (agrees with `String.splitOn "/"`:
the empty string yields `[""]`, separators delimit possibly-empty parts). -/
def splitOnSlash (s : String) : List String :=
  splitOnSlashGo s.data []

/-- `parts.join("/")` (`String.intercalate "/"`), kernel-evaluable. -/
def joinSlash : List String → String
  | [] => ""
  | [s] => s
  | s :: rest => s ++ "/" ++ joinSlash rest

/-- First-match lookup in an insertion-ordered association list
(the read semantics of `getQueryData` / JS property access). -/
def lookupA {α β : Type} [DecidableEq α] : List (α × β) → α → Option β
  | [], _ => none
  | (k, v) :: rest, a => if k = a then some v else lookupA rest a

/-- Replace-in-place-or-append write (the semantics of `setQueryData` and of
assigning a property on a JS object: an existing key keeps its position). -/
def setAssoc {α β : Type} [DecidableEq α] : List (α × β) → α → β → List (α × β)
  | [], a, b => [(a, b)]
  | (k, v) :: rest, a, b => if k = a then (a, b) :: rest else (k, v) :: setAssoc rest a b

/-- Delete a key (`removeQueries` / JS `delete obj[key]`). -/
def eraseA {α β : Type} [DecidableEq α] (l : List (α × β)) (a : α) : List (α × β) :=
  l.filter (fun e => !(e.1 = a))

/-- The state store: every slice the `useDataManager` family keeps in the
query-client plus the `useKBState` component state (`currentKB`,
`indexedFolders`).  Caches are keyed as their query keys are:
`rootCache` for `["kb-resources", kbId]`, `folderCache` for
`["kb-file-status", kbId, folderPath]`, `driveCache` for
`["drive-files", folderId]`. -/
structure Store where
  sync : SyncStateData
  queue : List DeleteRequest
  processing : Bool
  deleteRegistry : List (String × OptimisticDeleteEntry)
  folderRegistry : List (String × OptimisticFolderEntry)
  rootCache : List (String × List FileItem)
  folderCache : List ((String × String) × List FileItem)
  driveCache : List (String × List FileItem)
  currentKB : Option String
  indexedFolders : List (String × List String)
  deriving Repr, DecidableEq

/-- The store at startup: everything empty, sync state idle with no kb id. -/
def emptyStore : Store :=
  { sync := { state := "idle", kbId := none }
    queue := []
    processing := false
    deleteRegistry := []
    folderRegistry := []
    rootCache := []
    folderCache := []
    driveCache := []
    currentKB := none
    indexedFolders := [] }

/-! ## Sync state (`useSyncState.updateSyncState`) -/

/-- `updateSyncState` on the bare record: the new `kbId` is
`kbId || currentData.kbId`, so a `null` or `""` argument keeps the stored id. -/
def updateSyncStateData (cur : SyncStateData) (newState : String) (kbId : Option String) :
    SyncStateData :=
  { state := newState, kbId := if strTruthy kbId then kbId else cur.kbId }

/-- `updateSyncState` lifted to the store. -/
def updateSyncState (st : Store) (newState : String) (kbId : Option String) : Store :=
  { st with sync := updateSyncStateData st.sync newState kbId }

/-- `setSyncPending(kbId)` = `updateSyncState("pending", kbId)`. -/
def setSyncPending (st : Store) (kbId : String) : Store :=
  updateSyncState st "pending" (some kbId)

/-- `setSyncCompleted(kbId)` = `updateSyncState("synced", kbId)`. -/
def setSyncCompleted (st : Store) (kbId : String) : Store :=
  updateSyncState st "synced" (some kbId)

/-- `resetSyncState()` = `updateSyncState("idle", null)`. -/
def resetSyncState (st : Store) : Store :=
  updateSyncState st "idle" none

/-! ## Delete queue (`useDataManager` queue operations, `useFileDeletion.processQueue`) -/

/-- `queueDeleteRequest`: build the request and append it to the tail. -/
def queueDeleteRequest (st : Store) (fileId fileName kbId : String) (now : Nat) : Store :=
  let deleteRequest : DeleteRequest :=
    { id := "delete-" ++ fileId ++ "-" ++ toString now
      fileId := fileId
      fileName := fileName
      resourcePath := "/" ++ fileName
      kbId := kbId
      timestamp := now }
  { st with queue := st.queue ++ [deleteRequest] }

/-- `removeFromQueue(requestId)`: drop the request with that id. -/
def removeFromQueue (st : Store) (requestId : String) : Store :=
  { st with queue := st.queue.filter (fun req => !(req.id = requestId)) }

/-- `updateQueueKBId(oldKbId, newKbId)`: rewrite matching requests. -/
def updateQueueKBId (st : Store) (oldKbId newKbId : String) : Store :=
  { st with
    queue := st.queue.map (fun request =>
      if request.kbId = oldKbId then { request with kbId := newKbId } else request) }

/-- `setQueueProcessing`. -/
def setQueueProcessing (st : Store) (processing : Bool) : Store :=
  { st with processing := processing }

/-- The body of `processQueue`'s `for` loop over the queue snapshot: each
request is attempted exactly once (the attempt is recorded on the trace) and
removed from the live queue whether the deletion call succeeded or failed
(`catch` also calls `removeFromQueue` — no retry). -/
def processQueueGo (delOk : String → String → Bool) :
    List DeleteRequest → Store → List (String × String) → Store × List (String × String)
  | [], st, trace => (st, trace)
  | request :: rest, st, trace =>
    let trace := trace ++ [(request.kbId, request.resourcePath)]
    let st :=
      if delOk request.kbId request.resourcePath then
        removeFromQueue st request.id
      else
        -- failed request is also removed to prevent infinite retry
        removeFromQueue st request.id
    processQueueGo delOk rest st trace

/-- `processQueue`: guard, mark processing, drain the snapshot of the queue
sequentially, unmark processing.  Returns the trace of deletion calls
(kbId, resourcePath) in the order they were issued. -/
def processQueue (delOk : String → String → Bool) (currentKB : Option String) (st : Store) :
    Store × List (String × String) :=
  if !strTruthy currentKB || st.processing || st.queue.isEmpty then (st, [])
  else
    let snapshot := st.queue
    let st := setQueueProcessing st true
    let (st, trace) := processQueueGo delOk snapshot st []
    (setQueueProcessing st false, trace)

/-! ## Optimistic delete registry (`useDataManager` registry operations) -/

/-- `markFileAsDeleted`: store an entry keyed by `fileId`, `locked: true`. -/
def markFileAsDeleted (st : Store) (fileId fileName kbId : String) (now : Nat) : Store :=
  let entry : OptimisticDeleteEntry :=
    { fileId := fileId, fileName := fileName, kbId := kbId, timestamp := now, locked := true }
  { st with deleteRegistry := setAssoc st.deleteRegistry fileId entry }

/-- `removeFromRegistry(fileId)`. -/
def removeFromRegistry (st : Store) (fileId : String) : Store :=
  { st with deleteRegistry := eraseA st.deleteRegistry fileId }

/-- `clearRegistry()`. -/
def clearRegistry (st : Store) : Store :=
  { st with deleteRegistry := [] }

/-! ## Optimistic folder registry (`useOptimisticFolderRegistry`) -/

/-- `getFolderPathFromName`: split on `/`, drop the last segment only when it
contains a dot (a file name), and prepend a leading slash. -/
def getFolderPathFromName (name : String) : String :=
  let pathParts := splitOnSlash name
  let pathParts :=
    if strContainsChar (pathParts.getLastD "") '.' then pathParts.dropLast else pathParts
  "/" ++ joinSlash pathParts

/-- `markFoldersAsOptimisticallyIndexed(kbId, selectedFolderIds, folderNameMap)`:
for each folder id with a name in the map, store an entry under key
`kbId-folderId`. -/
def markFoldersAsOptimisticallyIndexed (st : Store) (kbId : String)
    (selectedFolderIds : List String) (folderNameMap : List (String × String)) (now : Nat) :
    Store :=
  let newEntries := selectedFolderIds.foldl
    (fun entries folderId =>
      match lookupA folderNameMap folderId with
      | some folderName =>
        let folderPath := getFolderPathFromName folderName
        let entryKey := kbId ++ "-" ++ folderId
        setAssoc entries entryKey
          { kbId := kbId, folderId := folderId, folderPath := folderPath,
            createdAt := now, rootFolderIds := selectedFolderIds }
      | none => entries)
    st.folderRegistry
  { st with folderRegistry := newEntries }

/-- The registered entries of the folder registry in insertion order
(`Object.values(registryData.entries)`). -/
def folderRegistryValues (st : Store) : List OptimisticFolderEntry :=
  st.folderRegistry.map (fun e => e.2)

/-- Leading-slash normalization used by the descendant checks. -/
def normalizePath (targetFolderPath : String) : String :=
  if strStartsWith targetFolderPath "/" then targetFolderPath else "/" ++ targetFolderPath

/-- The descendant test both registry queries apply to one entry: the
normalized target extends the registered path past a `/`, or equals it. -/
def entryMatches (normalizedTarget : String) (entry : OptimisticFolderEntry) : Bool :=
  strStartsWith normalizedTarget (entry.folderPath ++ "/") || normalizedTarget = entry.folderPath

/-- `isDescendantOfOptimisticFolder(kbId, targetFolderPath)`: false on falsy
arguments; otherwise true iff some entry of this KB has a path that the
normalized target equals or strictly extends past a `/`. -/
def isDescendantOfOptimisticFolder (st : Store) (kbId targetFolderPath : String) : Bool :=
  if kbId = "" || targetFolderPath = "" then false
  else
    let normalizedTarget := normalizePath targetFolderPath
    let kbEntries := (folderRegistryValues st).filter (fun entry => entry.kbId = kbId)
    kbEntries.any (fun entry => entryMatches normalizedTarget entry)

/-- One step of `getOptimisticAncestorFolder`'s best-match scan: a matching
entry with a strictly longer registered path replaces the current best. -/
def bestMatchStep (normalizedTarget : String) (acc : Option OptimisticFolderEntry × Nat)
    (entry : OptimisticFolderEntry) : Option OptimisticFolderEntry × Nat :=
  if entryMatches normalizedTarget entry then
    if entry.folderPath.length > acc.2 then (some entry, entry.folderPath.length) else acc
  else acc

/-- `getOptimisticAncestorFolder(kbId, targetFolderPath)`: among matching
entries, keep the one with the longest registered path (a strictly longer
match replaces the current best, so the first entry wins on ties). -/
def getOptimisticAncestorFolder (st : Store) (kbId targetFolderPath : String) :
    Option OptimisticFolderEntry :=
  if kbId = "" || targetFolderPath = "" then none
  else
    let normalizedTarget := normalizePath targetFolderPath
    let kbEntries := (folderRegistryValues st).filter (fun entry => entry.kbId = kbId)
    let best := kbEntries.foldl (bestMatchStep normalizedTarget) (none, 0)
    best.1

/-- `removeOptimisticFolder(kbId, folderId)`. -/
def removeOptimisticFolder (st : Store) (kbId folderId : String) : Store :=
  { st with folderRegistry := eraseA st.folderRegistry (kbId ++ "-" ++ folderId) }

/-- `clearOptimisticFoldersForKB(kbId)`: delete every entry whose `kbId`
field matches. -/
def clearOptimisticFoldersForKB (st : Store) (kbId : String) : Store :=
  { st with folderRegistry := st.folderRegistry.filter (fun e => !(e.2.kbId = kbId)) }

/-! ## Cache operations (`useCacheOperations`) -/

/-- `updateKBResourcesCache(kbId, updater)` on `["kb-resources", kbId]`. -/
def updateKBResourcesCache (st : Store) (kbId : String)
    (updater : Option (List FileItem) → List FileItem) : Store :=
  { st with rootCache := setAssoc st.rootCache kbId (updater (lookupA st.rootCache kbId)) }

/-- `updateFolderStatusCache(kbId, folderPath, updater)` on
`["kb-file-status", kbId, folderPath]`. -/
def updateFolderStatusCache (st : Store) (kbId folderPath : String)
    (updater : Option (List FileItem) → List FileItem) : Store :=
  { st with
    folderCache :=
      setAssoc st.folderCache (kbId, folderPath)
        (updater (lookupA st.folderCache (kbId, folderPath))) }

/-! ## Status resolver (`useOptimisticRegistry.resolveFileStatus`) -/

/-- The display rule applied by the resolver: `pending` is shown `indexed`. -/
def mapPending (s : Option String) : Option String :=
  if s = some "pending" then some "indexed" else s

/-- The root-cache probe of resolver step 2: the record with this id in the
`["kb-resources", kbId]` slice, when that slice exists. -/
def rootCacheFind (st : Store) (kbId fileId : String) : Option FileItem :=
  match lookupA st.rootCache kbId with
  | some data => data.find? (fun r => r.id = fileId)
  | none => none

/-- The folder-cache probe of resolver step 3: the record with this id in
the `["kb-file-status", kbId, folderPath]` slice, when that slice exists. -/
def folderCacheFind (st : Store) (kbId folderPath fileId : String) : Option FileItem :=
  match lookupA st.folderCache (kbId, folderPath) with
  | some data => data.find? (fun r => r.id = fileId)
  | none => none

/-- `resolveFileStatus(fileId, kbId, folderPath)`.  Result encoding:
`none` is the JS `null` default (absent), `some (some "-")` the deleted
sentinel, `some s` the (display-mapped) status of the matching record.
The per-lookup memo of the source is read-through and invalidated on every
relevant change, hence transparent here. -/
def resolveFileStatus (st : Store) (fileId : String) (kbId : Option String)
    (folderPath : Option String) : Option (Option String) :=
  -- 1. optimistic delete registry (highest priority)
  if (lookupA st.deleteRegistry fileId).isSome then some (some "-")
  else
    -- 2. KB resources cache (root files)
    let rootHit : Option FileItem :=
      if strTruthy kbId then rootCacheFind st (kbId.getD "") fileId else none
    match rootHit with
    | some resource => some (mapPending resource.status)
    | none =>
      -- 3. folder status cache (folder files)
      let folderHit : Option FileItem :=
        if strTruthy kbId && strTruthy folderPath then
          folderCacheFind st (kbId.getD "") (folderPath.getD "") fileId
        else none
      match folderHit with
      | some folderFile => some (mapPending folderFile.status)
      | none =>
        -- 4. optimistic folder registry
        if strTruthy kbId && strTruthy folderPath &&
            isDescendantOfOptimisticFolder st (kbId.getD "") (folderPath.getD "") then
          some (some "indexed")
        else
          -- 5. default: not part of this KB
          none

/-! ## Folder helpers (`useFolderHelpers`) -/

/-- `getFolderPathFromFileName`: split on `/`, unconditionally drop the last
segment (the file name), and prepend a leading slash. -/
def getFolderPathFromFileName (fileName : String) : String :=
  let pathParts := splitOnSlash fileName
  "/" ++ joinSlash pathParts.dropLast

/-- A placeholder record for unreachable `head` accesses on nonempty lists. -/
def defFileItem : FileItem :=
  { id := "", name := "", ftype := "", size := 0, status := none }

/-- The immediate children of directory `dir` within `allFiles`: names that
extend `dir.name` by exactly one path segment. -/
def childFilesOf (allFiles : List FileItem) (dir : FileItem) : List FileItem :=
  allFiles.filter (fun f =>
    strStartsWith f.name (dir.name ++ "/") &&
    (splitOnSlash f.name).length = (splitOnSlash dir.name).length + 1)

/-- The recursive `processFiles` of `getAllDescendantFileIds`.  The source
recursion descends through `childFilesOf`, whose members have one more path
segment than their parent, so the maximal segment count over `allFiles`
bounds the depth; `fuel` makes that measure explicit. -/
def getAllDescendantFileIdsGo (allFiles : List FileItem) :
    Nat → List FileItem → List String
  | 0, _ => []
  | fuel + 1, files =>
    (files.map (fun file =>
      if file.ftype = "file" then [file.id]
      else if file.ftype = "directory" then
        getAllDescendantFileIdsGo allFiles fuel (childFilesOf allFiles file)
      else [])).flatten

/-- `getAllDescendantFileIds(parentFiles, allFiles)`. -/
def getAllDescendantFileIds (parentFiles allFiles : List FileItem) : List String :=
  let fuel := allFiles.foldl (fun m f => max m (splitOnSlash f.name).length) 0 + 1
  getAllDescendantFileIdsGo allFiles fuel parentFiles

/-! ## KB creation orchestrator (`useKBCreation`) -/

/-- The mutation context returned by `onMutate` and consumed by
`onSuccess` / `onError`.  `folderFiles` is the `cachedFolderFiles` array,
including the entries pushed by completed background fetches. -/
structure KBCreationContext where
  optimisticKBId : String
  resourceIds : List String
  previousKB : Option String
  folderFiles : List (String × String × List String)
  allFileIds : List String
  deriving Repr, DecidableEq

/-- `resourceIds.filter(id => files.find(f => f.id === id)?.type === "directory")`. -/
def selectedDirectoryIds (resourceIds : List String) (files : List FileItem) : List String :=
  resourceIds.filter (fun id =>
    match files.find? (fun f => f.id = id) with
    | some item => item.ftype = "directory"
    | none => false)

/-- `resourceIds.filter(id => files.find(f => f.id === id)?.type === "file")`. -/
def selectedFileIds (resourceIds : List String) (files : List FileItem) : List String :=
  resourceIds.filter (fun id =>
    match files.find? (fun f => f.id = id) with
    | some item => item.ftype = "file"
    | none => false)

/-- The synthesized optimistic record for a root file
(`{ id, name: file?.name || "", type: file?.type || "file", size, status: "indexed" }`). -/
def optimisticRootResource (files : List FileItem) (fileId : String) : FileItem :=
  match files.find? (fun f => f.id = fileId) with
  | some file =>
    { id := fileId, name := file.name, ftype := file.ftype, size := file.size,
      status := some "indexed" }
  | none => { id := fileId, name := "", ftype := "file", size := 0, status := some "indexed" }

/-- The synthesized optimistic record for a file inside a folder
(`type` forced to `"file"`). -/
def optimisticFolderResource (files : List FileItem) (fileId : String) : FileItem :=
  match files.find? (fun f => f.id = fileId) with
  | some file =>
    { id := fileId, name := file.name, ftype := "file", size := file.size,
      status := some "indexed" }
  | none => { id := fileId, name := "", ftype := "file", size := 0, status := some "indexed" }

/-- The cache segregation of `onMutate` step 3. -/
structure SegregationResult where
  cachedFolderFiles : List (String × String × List String)
  uncachedFolderIds : List String
  allCachedFileIds : List String
  deriving Repr, DecidableEq

/-- `onMutate` step 3: walk the selected folders; a folder with nonempty
cached drive data and at least one descendant file id becomes a
`cachedFolderFiles` triple, every other folder is queued for background
fetching. -/
def segregateFolders (st : Store) (selectedFolders selectedFiles : List String)
    (files : List FileItem) : SegregationResult :=
  selectedFolders.foldl
    (fun acc folderId =>
      match lookupA st.driveCache folderId with
      | some data =>
        if data.length > 0 then
          let folderPath := getFolderPathFromFileName (data.headD defFileItem).name
          let fileIds := getAllDescendantFileIds data files
          if fileIds.length > 0 then
            { acc with
              cachedFolderFiles := acc.cachedFolderFiles ++ [(folderId, folderPath, fileIds)]
              allCachedFileIds := acc.allCachedFileIds ++ fileIds }
          else acc
        else { acc with uncachedFolderIds := acc.uncachedFolderIds ++ [folderId] }
      | none => { acc with uncachedFolderIds := acc.uncachedFolderIds ++ [folderId] })
    { cachedFolderFiles := [], uncachedFolderIds := [], allCachedFileIds := selectedFiles }

/-- `onMutate` step 6, one background fetch, modelled at its completion:
cache the listing (`fetchQuery`), then if it is nonempty and yields
descendant file ids, apply the rolling folder-status update under the temp
id and push onto `cachedFolderFiles`. -/
def backgroundFetchFolder (fetchData : String → List FileItem) (files : List FileItem)
    (tempId : String) (acc : Store × List (String × String × List String))
    (folderId : String) : Store × List (String × String × List String) :=
  let (st, folderFiles) := acc
  match files.find? (fun f => f.id = folderId) with
  | none => (st, folderFiles)
  | some _ =>
    let response := fetchData folderId
    let st := { st with driveCache := setAssoc st.driveCache folderId response }
    if response.length = 0 then (st, folderFiles)
    else
      let folderPath := getFolderPathFromFileName (response.headD defFileItem).name
      let fileIds := getAllDescendantFileIds response files
      if fileIds.length > 0 then
        let st := updateFolderStatusCache st tempId folderPath
          (fun _ => fileIds.map (optimisticFolderResource files))
        (st, folderFiles ++ [(folderId, folderPath, fileIds)])
      else (st, folderFiles)

/-- `createKBMutation.onMutate`, with every background folder fetch modelled
as already completed through the `fetchData` oracle (the source starts them
unawaited; they write into the same context array). -/
def kbCreationOnMutate (fetchData : String → List FileItem) (st : Store) (tempId : String)
    (resourceIds : List String) (files : List FileItem) (now : Nat) :
    Store × KBCreationContext :=
  let st := { st with currentKB := some tempId }
  let st := setSyncPending st tempId
  let selectedFolders := selectedDirectoryIds resourceIds files
  let selectedFiles := selectedFileIds resourceIds files
  let seg := segregateFolders st selectedFolders selectedFiles files
  let st := { st with indexedFolders := seg.cachedFolderFiles.map (fun e => (e.2.1, e.2.2)) }
  let immediateOptimisticKBResources := selectedFiles.map (optimisticRootResource files)
  let st := updateKBResourcesCache st tempId (fun _ => immediateOptimisticKBResources)
  let st :=
    if selectedFolders.length > 0 then
      let folderNameMap := selectedFolders.filterMap (fun folderId =>
        (files.find? (fun f => f.id = folderId)).map (fun f => (folderId, f.name)))
      markFoldersAsOptimisticallyIndexed st tempId selectedFolders folderNameMap now
    else st
  let st := seg.cachedFolderFiles.foldl
    (fun st e =>
      updateFolderStatusCache st tempId e.2.1
        (fun _ => e.2.2.map (optimisticFolderResource files)))
    st
  let (st, folderFiles) := seg.uncachedFolderIds.foldl
    (backgroundFetchFolder fetchData files tempId) (st, seg.cachedFolderFiles)
  (st,
    { optimisticKBId := tempId, resourceIds := resourceIds, previousKB := none,
      folderFiles := folderFiles, allFileIds := seg.allCachedFileIds })

/-- `onSuccess` root-cache transfer: copy the temp slice to the real id when
it is present. -/
def transferRootCache (st : Store) (tempId kb : String) : Store :=
  match lookupA st.rootCache tempId with
  | some optimisticRootData =>
    { st with rootCache := setAssoc st.rootCache kb optimisticRootData }
  | none => st

/-- `onSuccess` folder-registry migration: when folders were selected, clear
the temp-id entries and re-mark the selected folders under the real id. -/
def migrateFolderRegistry (st : Store) (tempId kb : String) (resourceIds : List String)
    (files : List FileItem) (now : Nat) : Store :=
  let selectedFolderIds := selectedDirectoryIds resourceIds files
  if selectedFolderIds.length > 0 then
    let st := clearOptimisticFoldersForKB st tempId
    let folderNameMap := selectedFolderIds.filterMap (fun folderId =>
      (files.find? (fun f => f.id = folderId)).map (fun f => (folderId, f.name)))
    markFoldersAsOptimisticallyIndexed st kb selectedFolderIds folderNameMap now
  else st

/-- `onSuccess` folder-status transfer: for each context folder path, copy
the temp slice to the real id when it is present. -/
def transferFolderCaches (st : Store) (tempId kb : String)
    (folderFiles : List (String × String × List String)) : Store :=
  folderFiles.foldl
    (fun st e =>
      match lookupA st.folderCache (tempId, e.2.1) with
      | some optimisticFolderData =>
        { st with folderCache := setAssoc st.folderCache (kb, e.2.1) optimisticFolderData }
      | none => st)
    st

/-- `onSuccess` temp cleanup: remove the temp-id root slice and every
temp-id folder-status slice. -/
def removeTempCaches (st : Store) (tempId : String) : Store :=
  let st := { st with rootCache := eraseA st.rootCache tempId }
  { st with folderCache := st.folderCache.filter (fun e => !(e.1.1 = tempId)) }

/-- `createKBMutation.onSuccess`: sync state under the real id, queue id
rewrite, root and folder cache transfer (copy, then temp-id removal), folder
registry migration, and the indexed-folders update. -/
def kbCreationOnSuccess (st : Store) (kb : String) (resourceIds : List String)
    (files : List FileItem) (context : KBCreationContext) (now : Nat) : Store :=
  let st := setSyncCompleted st kb
  let st := updateQueueKBId st context.optimisticKBId kb
  let st := { st with currentKB := some kb }
  -- saveKBToStorage targets the external persistent store, outside `Store`
  let st := transferRootCache st context.optimisticKBId kb
  let st := migrateFolderRegistry st context.optimisticKBId kb resourceIds files now
  let st := transferFolderCaches st context.optimisticKBId kb context.folderFiles
  let st := removeTempCaches st context.optimisticKBId
  { st with indexedFolders := context.folderFiles.map (fun e => (e.2.1, e.2.2)) }

/-- `createKBMutation.onError`: reset the current KB and indexed folders,
call `setSyncCompleted("")` (the source comment reads "Reset to idle"), and
remove the temp-id root and folder-status caches.  The optimistic folder
registry is not touched. -/
def kbCreationOnError (st : Store) (context : KBCreationContext) : Store :=
  let st := { st with currentKB := context.previousKB, indexedFolders := [] }
  let st := setSyncCompleted st ""
  let st := { st with rootCache := eraseA st.rootCache context.optimisticKBId }
  { st with folderCache := st.folderCache.filter (fun e => !(e.1.1 = context.optimisticKBId)) }

/-! ## Cache persistence (`useCachePersistence`) -/

/-- The persisted snapshot (`CacheStorageData`; `timestamp` and `version`
carry no logic). -/
structure CacheSnapshot where
  kbId : String
  rootResources : Option (List FileItem)
  folderStatuses : List (String × List FileItem)
  optimisticRegistry : List (String × OptimisticDeleteEntry)
  optimisticFolderRegistry : List (String × OptimisticFolderEntry)
  deriving Repr, DecidableEq

/-- `persistCacheToStorage(kbId)`: the root cache slice for `kbId`, every
folder-status cache for `kbId`, and both registries in full. -/
def persistCacheToStorage (st : Store) (kbId : String) : CacheSnapshot :=
  { kbId := kbId
    rootResources := lookupA st.rootCache kbId
    folderStatuses :=
      st.folderCache.filterMap (fun e => if e.1.1 = kbId then some (e.1.2, e.2) else none)
    optimisticRegistry := st.deleteRegistry
    optimisticFolderRegistry := st.folderRegistry }

/-- The startup restore effect: root cache (when present), every persisted
folder-status cache, and both registries (registry objects are always
truthy, hence always restored). -/
def restoreCacheFromStorage (storedCache : CacheSnapshot) (st : Store) : Store :=
  let st :=
    match storedCache.rootResources with
    | some rootResources =>
      { st with rootCache := setAssoc st.rootCache storedCache.kbId rootResources }
    | none => st
  let st := storedCache.folderStatuses.foldl
    (fun st pd =>
      { st with folderCache := setAssoc st.folderCache (storedCache.kbId, pd.1) pd.2 })
    st
  let st := { st with deleteRegistry := storedCache.optimisticRegistry }
  { st with folderRegistry := storedCache.optimisticFolderRegistry }

/-! ## Polling reconciler (`usePollingState`, `useKnowledgeBaseStatus`,
`useStatusFiltering`) -/

/-- `kbId?.startsWith('temp-') || false`. -/
def isTemporaryKB (kbId : Option String) : Bool :=
  match kbId with
  | some k => strStartsWith k "temp-"
  | none => false

/-- `shouldEnablePolling = enabled && !!kbId && !isTemporaryKB && shouldPoll`. -/
def shouldEnablePolling (enabled : Bool) (kbId : Option String) (shouldPoll : Bool) : Bool :=
  enabled && strTruthy kbId && !isTemporaryKB kbId && shouldPoll

/-- Modelled from the spec: `filterPollingResponse` of the
`useOptimisticDeleteRegistry` module (its source file is not part of the
provided tree; only its call sites are).  Per the spec it filters out of a
polling response every record whose id is present in the optimistic delete
registry. -/
def filterPollingResponse (registry : List (String × OptimisticDeleteEntry))
    (data : List FileItem) : List FileItem :=
  data.filter (fun f => !(lookupA registry f.id).isSome)

/-- `checkUnsettledFiles`'s pending detection: unsettled means some
file-type record is `pending` or `pending_delete`. -/
def hasUnsettledFiles (resources : List FileItem) : Bool :=
  let files := resources.filter (fun item => item.ftype = "file")
  files.any (fun file => file.status = some "pending") ||
    files.any (fun file => file.status = some "pending_delete")

/-- Why the continue-polling effect stopped, when it did. -/
inductive StopReason where
  | timeout
  | emptyKB
  | noFiles
  | allSettled
  deriving Repr, DecidableEq

/-- The decision of the `useKnowledgeBaseStatus` continue-polling effect on
one refetch: filter the raw listing through the delete registry, then stop
on timeout, on an empty filtered result, on a result with no file-type
records, or when nothing is unsettled and no folder poller is active. -/
def rootPollDecision (timedOut : Bool) (registry : List (String × OptimisticDeleteEntry))
    (rawData : List FileItem) (isFolderPollingActive : Bool) : Option StopReason :=
  let resources := filterPollingResponse registry rawData
  if timedOut then some .timeout
  else if resources.length = 0 then some .emptyKB
  else
    let files := resources.filter (fun item => item.ftype = "file")
    if files.length = 0 then some .noFiles
    else if !hasUnsettledFiles resources && !isFolderPollingActive then some .allSettled
    else none

/-- One refetch of the root poller state: a stop decision clears
`shouldPoll` (`stopPolling` / `checkPollingTimeout`), otherwise polling
continues. -/
def rootPollStep (shouldPoll : Bool) (timedOut : Bool)
    (registry : List (String × OptimisticDeleteEntry)) (rawData : List FileItem)
    (isFolderPollingActive : Bool) : Bool :=
  if (rootPollDecision timedOut registry rawData isFolderPollingActive).isSome then false
  else shouldPoll

/-! ## Error notifications (`checkUnsettledFiles`, `pollFolderStatus`) -/

/-- The root-scope error detection of `checkUnsettledFiles`: file-type
records with confirmed status `error`. -/
def rootErrorFiles (resources : List FileItem) : List FileItem :=
  (resources.filter (fun item => item.ftype = "file")).filter
    (fun file => file.status = some "error")

/-- The root-scope notification step of `checkUnsettledFiles`: when errored
files exist and the shared `hasShownErrorToast` flag is clear, set the flag
and emit the toast with its stable id. -/
def checkUnsettledEmit (hasShownErrorToast : Bool) (resources : List FileItem) :
    Bool × Option String :=
  if (rootErrorFiles resources).length > 0 && !hasShownErrorToast then
    (true, some "kb-error-toast")
  else (hasShownErrorToast, none)

/-- `pollFolderStatus`'s `hasErrors`: some expected file is found with
status `error` or `failed`. -/
def folderHasErrors (expectedFileIds : List String) (folderFiles : List FileItem) : Bool :=
  expectedFileIds.any (fun fileId =>
    match folderFiles.find? (fun f => f.id = fileId) with
    | some file => file.status = some "error" || file.status = some "failed"
    | none => false)

/-- The folder-scope notification step of `pollFolderStatus`: gated on the
same shared `hasShownErrorToast` flag; the toast id embeds the folder path. -/
def folderErrorEmit (hasShownErrorToast : Bool) (folderPath : String)
    (expectedFileIds : List String) (folderFiles : List FileItem) : Bool × Option String :=
  if folderHasErrors expectedFileIds folderFiles && !hasShownErrorToast then
    let failedFiles := expectedFileIds.filter (fun fileId =>
      match folderFiles.find? (fun f => f.id = fileId) with
      | some file => file.status = some "error" || file.status = some "failed"
      | none => false)
    if failedFiles.length > 0 then (true, some ("folder-error-" ++ folderPath))
    else (hasShownErrorToast, none)
  else (hasShownErrorToast, none)

/-- One error-observation: a root refetch or a folder poll. -/
inductive ErrObs where
  | root (resources : List FileItem)
  | folder (folderPath : String) (expectedFileIds : List String) (folderFiles : List FileItem)
  deriving Repr, DecidableEq

/-- Dispatch one observation through the matching notification step. -/
def errObsStep (hasShownErrorToast : Bool) : ErrObs → Bool × Option String
  | .root resources => checkUnsettledEmit hasShownErrorToast resources
  | .folder folderPath expectedFileIds folderFiles =>
    folderErrorEmit hasShownErrorToast folderPath expectedFileIds folderFiles

/-- Thread the shared flag through a sequence of observations, collecting
every emitted toast id in order. -/
def runErrObs (hasShownErrorToast : Bool) : List ErrObs → Bool × List String
  | [] => (hasShownErrorToast, [])
  | o :: rest =>
    let step := errObsStep hasShownErrorToast o
    let run := runErrObs step.1 rest
    (run.1, step.2.toList ++ run.2)

/-- Whether an observation carries errored files (the claim's trigger). -/
def errObsHasErrors : ErrObs → Bool
  | .root resources => (rootErrorFiles resources).length > 0
  | .folder _ expectedFileIds folderFiles => folderHasErrors expectedFileIds folderFiles

/-- The stable toast id of the scope an observation belongs to. -/
def errObsToastId : ErrObs → String
  | .root _ => "kb-error-toast"
  | .folder folderPath _ _ => "folder-error-" ++ folderPath

/-! ## Transition sequences over the sync state -/

/-- A sequence of `updateSyncState` calls, each a `(newState, kbId)` pair. -/
def runSyncOps (init : SyncStateData) (ops : List (String × Option String)) : SyncStateData :=
  ops.foldl (fun cur op => updateSyncStateData cur op.1 op.2) init

/-- The last truthy kbId of a call sequence, falling back to the initial id. -/
def lastTruthyKbId (init : Option String) (ops : List (String × Option String)) :
    Option String :=
  ops.foldl (fun acc op => if strTruthy op.2 then op.2 else acc) init

/-! ## Concrete fixtures -/

/-- A registry entry locking file `f1` as deleted. -/
def delEntryF1 : OptimisticDeleteEntry :=
  { fileId := "f1", fileName := "x.t", kbId := "kb1", timestamp := 0, locked := true }

/-- File `f1`, confirmed indexed. -/
def itemF1Indexed : FileItem :=
  { id := "f1", name := "x.t", ftype := "file", size := 1, status := some "indexed" }

/-- A store whose caches claim `f1` is indexed while the delete registry
locks it as deleted. -/
def storeDeleted : Store :=
  { emptyStore with
    deleteRegistry := [("f1", delEntryF1)]
    rootCache := [("kb1", [itemF1Indexed])]
    folderCache := [(("kb1", "/A"), [itemF1Indexed])] }

/-- File `f1` with backend status `pending`. -/
def itemF1Pending : FileItem :=
  { id := "f1", name := "x.t", ftype := "file", size := 1, status := some "pending" }

/-- File `f2` inside `/A` with backend status `pending`. -/
def itemF2Pending : FileItem :=
  { id := "f2", name := "A/y.t", ftype := "file", size := 1, status := some "pending" }

/-- A store with a pending root record for `f1`. -/
def storeRootPending : Store :=
  { emptyStore with rootCache := [("kb1", [itemF1Pending])] }

/-- A store with a pending folder record for `f2` under `("kb1", "/A")`. -/
def storeFolderPending : Store :=
  { emptyStore with folderCache := [(("kb1", "/A"), [itemF2Pending])] }

/-- Registry entry for optimistic folder `/A` of `kb1`. -/
def entrySlashA : OptimisticFolderEntry :=
  { kbId := "kb1", folderId := "dA", folderPath := "/A", createdAt := 0,
    rootFolderIds := ["dA", "dB"] }

/-- Registry entry for optimistic folder `/A/B` of `kb1`. -/
def entrySlashAB : OptimisticFolderEntry :=
  { kbId := "kb1", folderId := "dB", folderPath := "/A/B", createdAt := 0,
    rootFolderIds := ["dA", "dB"] }

/-- A store with both `/A` and `/A/B` registered as optimistic for `kb1`. -/
def storeTwoFolders : Store :=
  { emptyStore with folderRegistry := [("kb1-dA", entrySlashA), ("kb1-dB", entrySlashAB)] }

/-- A queued delete request for `x.t`. -/
def reqOne : DeleteRequest :=
  { id := "delete-f1-1", fileId := "f1", fileName := "x.t", resourcePath := "/x.t",
    kbId := "kb1", timestamp := 1 }

/-- A queued delete request for `y.t`. -/
def reqTwo : DeleteRequest :=
  { id := "delete-f2-2", fileId := "f2", fileName := "y.t", resourcePath := "/y.t",
    kbId := "kb1", timestamp := 2 }

/-- A store with two queued delete requests and no drain in progress. -/
def storeQueued : Store := { emptyStore with queue := [reqOne, reqTwo] }

/-- Directory `A`, selected for KB creation. -/
def dirA : FileItem := { id := "dirA", name := "A", ftype := "directory", size := 0, status := none }

/-- File `A/x.t` inside directory `A`. -/
def fileAx : FileItem := { id := "fx", name := "A/x.t", ftype := "file", size := 1, status := none }

/-- The listing passed to the KB-creation mutation. -/
def kbCreationFiles : List FileItem := [dirA, fileAx]

/-- The pre-creation store: the drive cache already holds `A`'s contents. -/
def storePreCreation : Store := { emptyStore with driveCache := [("dirA", [fileAx])] }

/-- The optimistic phase run on the fixture: folder `A` is cached, so no
background fetch fires. -/
def kbCreationPendingRun : Store × KBCreationContext :=
  kbCreationOnMutate (fun _ => []) storePreCreation "temp-1" ["dirA"] kbCreationFiles 5

/-- The store after the rollback handler runs on the failed creation. -/
def storeAfterRollback : Store :=
  kbCreationOnError kbCreationPendingRun.1 kbCreationPendingRun.2

/-- A root record with confirmed status `error`. -/
def errRootItem : FileItem :=
  { id := "r1", name := "r1.t", ftype := "file", size := 1, status := some "error" }

/-- A folder record with confirmed status `failed`. -/
def failedFolderItem : FileItem :=
  { id := "g1", name := "A/g1.t", ftype := "file", size := 1, status := some "failed" }

/-- A populated store for the persistence round-trip: root cache, two folder
caches, a delete-registry entry and a folder-registry entry, all for `kb1`. -/
def storeRoundtrip : Store :=
  { emptyStore with
    rootCache := [("kb1", [itemF1Indexed])]
    folderCache := [(("kb1", "/A"), [itemF2Pending]), (("kb1", "/B"), [])]
    deleteRegistry := [("f9", { fileId := "f9", fileName := "z.t", kbId := "kb1",
                                timestamp := 3, locked := true })]
    folderRegistry := [("kb1-dA", entrySlashA)] }

/-!
## Theorems

Association-list lemmas first, then per-claim results.
-/

@[simp] theorem lookupA_nil {α β : Type} [DecidableEq α] (a : α) :
    lookupA ([] : List (α × β)) a = none := rfl

@[simp] theorem lookupA_cons {α β : Type} [DecidableEq α] (k : α) (v : β) (rest : List (α × β)) (a : α) :
    lookupA ((k, v) :: rest) a = if k = a then some v else lookupA rest a := rfl

theorem lookupA_setAssoc_self {α β : Type} [DecidableEq α] (l : List (α × β)) (a : α) (b : β) :
    lookupA (setAssoc l a b) a = some b := by
  induction l with
  | nil => simp [setAssoc]
  | cons e rest ih =>
    obtain ⟨k, v⟩ := e
    by_cases h : k = a <;> simp [setAssoc, h, ih]

theorem lookupA_setAssoc_ne {α β : Type} [DecidableEq α] (l : List (α × β)) (a a' : α) (b : β)
    (h : a' ≠ a) : lookupA (setAssoc l a b) a' = lookupA l a' := by
  induction l with
  | nil =>
    have : ¬a = a' := fun hc => h hc.symm
    simp [setAssoc, lookupA, this]
  | cons e rest ih =>
    obtain ⟨k, v⟩ := e
    by_cases hk : k = a
    · subst hk
      have : ¬k = a' := fun hc => h hc.symm
      simp [setAssoc, lookupA, this]
    · simp [setAssoc, hk, lookupA, ih]

theorem lookupA_eraseA_self {α β : Type} [DecidableEq α] (l : List (α × β)) (a : α) :
    lookupA (eraseA l a) a = none := by
  induction l with
  | nil => simp [eraseA]
  | cons e rest ih =>
    obtain ⟨k, v⟩ := e
    by_cases h : k = a
    · simpa [eraseA, h] using ih
    · have := ih
      simp only [eraseA, List.filter] at this ⊢
      simp [h, lookupA, this]

theorem lookupA_eraseA_ne {α β : Type} [DecidableEq α] (l : List (α × β)) (a a' : α)
    (h : a' ≠ a) : lookupA (eraseA l a) a' = lookupA l a' := by
  induction l with
  | nil => simp [eraseA]
  | cons e rest ih =>
    obtain ⟨k, v⟩ := e
    by_cases hk : k = a
    · subst hk
      have hne : ¬k = a' := fun hc => h hc.symm
      have := ih
      simp only [eraseA, List.filter] at this ⊢
      simp [hne, lookupA, this]
    · have := ih
      simp only [eraseA, List.filter] at this ⊢
      by_cases hk' : k = a' <;> simp [hk, hk', h, lookupA, this]

theorem lookupA_eq_none_of_not_mem_keys {α β : Type} [DecidableEq α]
    (l : List (α × β)) (a : α) (h : ∀ e ∈ l, e.1 ≠ a) : lookupA l a = none := by
  induction l with
  | nil => rfl
  | cons e rest ih =>
    obtain ⟨k, v⟩ := e
    have hk : k ≠ a := h (k, v) (List.mem_cons_self _ _)
    simp [lookupA, hk]
    exact ih (fun e he => h e (List.mem_cons_of_mem _ he))

theorem lookupA_isSome_mem {α β : Type} [DecidableEq α] (l : List (α × β)) (a : α)
    (h : (lookupA l a).isSome = true) : ∃ e ∈ l, e.1 = a ∧ lookupA l a = some e.2 := by
  induction l with
  | nil => simp [lookupA] at h
  | cons e rest ih =>
    obtain ⟨k, v⟩ := e
    by_cases hk : k = a
    · exact ⟨(k, v), List.mem_cons_self _ _, hk, by simp [lookupA, hk]⟩
    · have h' : (lookupA rest a).isSome = true := by simpa [lookupA, hk] using h
      obtain ⟨e, he, hkey, hval⟩ := ih h'
      exact ⟨e, List.mem_cons_of_mem _ he, hkey, by simpa [lookupA, hk] using hval⟩

/-- C2: a fileId present in the optimistic delete registry resolves to the
deleted dash sentinel for every kbId and folderPath, regardless of the root
resource cache and the folder status cache. -/
theorem resolveFileStatus_deleted_registry_wins (st : Store) (fileId : String)
    (kbId folderPath : Option String)
    (h : (lookupA st.deleteRegistry fileId).isSome = true) :
    resolveFileStatus st fileId kbId folderPath = some (some "-") := by
  simp [resolveFileStatus, h]

/-- Witness for C2: `storeDeleted`'s caches say `f1` is indexed, yet the
resolver returns the dash sentinel. -/
theorem resolveFileStatus_deleted_registry_wins_witness :
    (lookupA storeDeleted.deleteRegistry "f1").isSome = true ∧
    resolveFileStatus storeDeleted "f1" (some "kb1") (some "/A") = some (some "-") :=
  ⟨by decide, resolveFileStatus_deleted_registry_wins storeDeleted "f1" (some "kb1")
    (some "/A") (by decide)⟩

theorem runSyncOps_kbId (ops : List (String × Option String)) (init : SyncStateData) :
    (runSyncOps init ops).kbId = lastTruthyKbId init.kbId ops := by
  induction ops generalizing init with
  | nil => rfl
  | cons op ops ih =>
    simp only [runSyncOps, List.foldl_cons, lastTruthyKbId] at *
    rw [ih (updateSyncStateData init op.1 op.2)]
    rfl

/-- C10: `updateSyncState` keeps the stored kbId on a null or empty kbId
argument: over any call sequence, the final kbId is the last truthy kbId
passed (falling back to the initial one); the `("idle", null)` call of
`resetSyncState` and `setSyncCompleted("")` change only the state field. -/
theorem updateSyncState_preserves_last_nonempty_kbId
    (init cur : SyncStateData) (ops : List (String × Option String)) :
    (runSyncOps init ops).kbId = lastTruthyKbId init.kbId ops ∧
    (updateSyncStateData cur "idle" none).kbId = cur.kbId ∧
    (updateSyncStateData cur "idle" none).state = "idle" ∧
    (updateSyncStateData cur "synced" (some "")).kbId = cur.kbId ∧
    (updateSyncStateData cur "synced" (some "")).state = "synced" :=
  ⟨runSyncOps_kbId ops init, rfl, rfl, rfl, rfl⟩

theorem filter_filter_and {α : Type} (p q : α → Bool) (l : List α) :
    (l.filter p).filter q = l.filter (fun a => p a && q a) := by
  induction l with
  | nil => rfl
  | cons x xs ih => by_cases hp : p x <;> by_cases hq : q x <;> simp [hp, hq, ih]

theorem processQueueGo_trace (delOk : String → String → Bool) (pending : List DeleteRequest)
    (st : Store) (trace : List (String × String)) :
    (processQueueGo delOk pending st trace).2 =
      trace ++ pending.map (fun r => (r.kbId, r.resourcePath)) := by
  induction pending generalizing st trace with
  | nil => simp [processQueueGo]
  | cons q rest ih =>
    simp only [processQueueGo, ite_self]
    rw [ih]
    simp

theorem processQueueGo_queue (delOk : String → String → Bool) (pending : List DeleteRequest)
    (st : Store) (trace : List (String × String)) :
    (processQueueGo delOk pending st trace).1.queue =
      st.queue.filter (fun r => pending.all (fun p => !(r.id = p.id))) := by
  induction pending generalizing st trace with
  | nil => simp [processQueueGo]
  | cons q rest ih =>
    simp only [processQueueGo, ite_self]
    rw [ih]
    simp only [removeFromQueue, filter_filter_and]
    congr 1

theorem processQueueGo_processing (delOk : String → String → Bool)
    (pending : List DeleteRequest) (st : Store) (trace : List (String × String)) :
    (processQueueGo delOk pending st trace).1.processing = st.processing := by
  induction pending generalizing st trace with
  | nil => rfl
  | cons q rest ih => simp [processQueueGo, ite_self, ih, removeFromQueue]

theorem filter_all_ne_self (l : List DeleteRequest) :
    l.filter (fun r => l.all (fun p => !(r.id = p.id))) = [] := by
  rw [List.filter_eq_nil_iff]
  intro r hr hall
  have := (List.all_eq_true.mp hall) r hr
  simp at this

/-- C4: draining processes requests sequentially in FIFO order (the call
trace lists exactly the queued requests, in order, each once), every request
that received a response is removed by drain end (the queue empties), the
processing flag is released, and enqueueing appends at the tail. -/
theorem deleteQueue_drain_fifo_at_most_once (delOk : String → String → Bool)
    (currentKB : Option String) (st : Store)
    (hkb : strTruthy currentKB = true) (hproc : st.processing = false)
    (hne : st.queue ≠ []) :
    (processQueue delOk currentKB st).2 =
        st.queue.map (fun r => (r.kbId, r.resourcePath)) ∧
    (processQueue delOk currentKB st).1.queue = [] ∧
    (processQueue delOk currentKB st).1.processing = false ∧
    ∀ (st' : Store) (fileId fileName kbId : String) (now : Nat),
      (queueDeleteRequest st' fileId fileName kbId now).queue =
        st'.queue ++ [{ id := "delete-" ++ fileId ++ "-" ++ toString now, fileId := fileId,
                        fileName := fileName, resourcePath := "/" ++ fileName, kbId := kbId,
                        timestamp := now }] := by
  have hempty : st.queue.isEmpty = false := by
    cases hq : st.queue with
    | nil => exact absurd hq hne
    | cons a l => simp [List.isEmpty]
  have hguard : (!strTruthy currentKB || st.processing || st.queue.isEmpty) = false := by
    simp [hkb, hproc, hempty]
  refine ⟨?_, ?_, ?_, fun st' fileId fileName kbId now => rfl⟩
  · simp only [processQueue, hguard, Bool.false_eq_true, if_false]
    rw [processQueueGo_trace]
    simp [setQueueProcessing]
  · simp only [processQueue, hguard, Bool.false_eq_true, if_false]
    simp only [setQueueProcessing]
    rw [processQueueGo_queue]
    exact filter_all_ne_self st.queue
  · simp only [processQueue, hguard, Bool.false_eq_true, if_false]
    simp [setQueueProcessing]

/-- Witness for C4 on the two-request fixture. -/
theorem deleteQueue_drain_fifo_at_most_once_witness :
    storeQueued.queue ≠ [] ∧
    (processQueue (fun _ _ => true) (some "kb1") storeQueued).2 =
      storeQueued.queue.map (fun r => (r.kbId, r.resourcePath)) ∧
    (processQueue (fun _ _ => true) (some "kb1") storeQueued).1.queue = [] :=
  ⟨by decide,
   (deleteQueue_drain_fifo_at_most_once (fun _ _ => true) (some "kb1") storeQueued
     (by decide) (by decide) (by decide)).1,
   (deleteQueue_drain_fifo_at_most_once (fun _ _ => true) (some "kb1") storeQueued
     (by decide) (by decide) (by decide)).2.1⟩

/-- C5: for a fileId not in the delete registry the resolver returns the
root-cache record's status when one matches, else the folder-cache record's
status (both display-mapped, `pending` shown as `indexed`), and `none`
(absent) when neither cache matches and the folder path is not a descendant
of a registered optimistic folder. -/
theorem resolveFileStatus_precedence (st : Store) (fileId k p : String)
    (hk : k ≠ "") (hp : p ≠ "")
    (hdel : lookupA st.deleteRegistry fileId = none) :
    (∀ r, rootCacheFind st k fileId = some r →
      resolveFileStatus st fileId (some k) (some p) = some (mapPending r.status)) ∧
    (rootCacheFind st k fileId = none →
      ∀ r, folderCacheFind st k p fileId = some r →
        resolveFileStatus st fileId (some k) (some p) = some (mapPending r.status)) ∧
    (rootCacheFind st k fileId = none → folderCacheFind st k p fileId = none →
      isDescendantOfOptimisticFolder st k p = false →
      resolveFileStatus st fileId (some k) (some p) = none) ∧
    mapPending (some "pending") = some "indexed" := by
  have htr : strTruthy (some k) = true := by simp [strTruthy, hk]
  have htrp : strTruthy (some p) = true := by simp [strTruthy, hp]
  refine ⟨?_, ?_, ?_, rfl⟩
  · intro r hr
    simp [resolveFileStatus, hdel, htr, hr]
  · intro hroot r hr
    simp [resolveFileStatus, hdel, htr, htrp, hroot, hr]
  · intro hroot hfold hdesc
    simp [resolveFileStatus, hdel, htr, htrp, hroot, hfold, hdesc]

/-- Witness for C5: a pending root record shows `indexed`, a pending folder
record shows `indexed`, and an unknown file resolves to absent. -/
theorem resolveFileStatus_precedence_witness :
    lookupA storeRootPending.deleteRegistry "f1" = none ∧
    resolveFileStatus storeRootPending "f1" (some "kb1") (some "/A") =
      some (mapPending itemF1Pending.status) ∧
    resolveFileStatus storeFolderPending "f2" (some "kb1") (some "/A") =
      some (mapPending itemF2Pending.status) ∧
    resolveFileStatus emptyStore "f1" (some "kb1") (some "/A") = none := by
  refine ⟨by decide, ?_, ?_, ?_⟩
  · exact (resolveFileStatus_precedence storeRootPending "f1" "kb1" "/A"
      (by decide) (by decide) (by decide)).1 itemF1Pending (by decide)
  · exact (resolveFileStatus_precedence storeFolderPending "f2" "kb1" "/A"
      (by decide) (by decide) (by decide)).2.1 (by decide) itemF2Pending (by decide)
  · exact (resolveFileStatus_precedence emptyStore "f1" "kb1" "/A"
      (by decide) (by decide) (by decide)).2.2.1 (by decide) (by decide) (by decide)

theorem entryMatches_iff (t : String) (e : OptimisticFolderEntry) :
    entryMatches t e = true ↔
      (t = e.folderPath ∨ strStartsWith t (e.folderPath ++ "/") = true) := by
  simp [entryMatches, Bool.or_eq_true, decide_eq_true_eq, or_comm]

theorem bestMatch_fold_spec (t : String) (l : List OptimisticFolderEntry)
    (acc : Option OptimisticFolderEntry × Nat)
    (hacc1 : ∀ e, acc.1 = some e → entryMatches t e = true)
    (hacc2 : ∀ e, acc.1 = some e → acc.2 = e.folderPath.length)
    (hacc3 : acc.1 = none → acc.2 = 0) :
    (∀ e, (l.foldl (bestMatchStep t) acc).1 = some e →
        entryMatches t e = true ∧ (e ∈ l ∨ acc.1 = some e)) ∧
    (∀ e' ∈ l, entryMatches t e' = true →
        e'.folderPath.length ≤ (l.foldl (bestMatchStep t) acc).2) ∧
    (acc.2 ≤ (l.foldl (bestMatchStep t) acc).2) ∧
    (∀ e, (l.foldl (bestMatchStep t) acc).1 = some e →
        (l.foldl (bestMatchStep t) acc).2 = e.folderPath.length) ∧
    ((l.foldl (bestMatchStep t) acc).1 = none →
        acc.1 = none ∧ ∀ e' ∈ l, entryMatches t e' = true → e'.folderPath.length = 0) := by
  induction l generalizing acc with
  | nil =>
    refine ⟨fun e he => ⟨hacc1 e he, Or.inr he⟩, by simp, le_refl _,
      fun e he => hacc2 e he, fun hn => ⟨hn, by simp⟩⟩
  | cons e0 rest ih =>
    by_cases hm : entryMatches t e0 = true
    · by_cases hlen : e0.folderPath.length > acc.2
      · have hstep : bestMatchStep t acc e0 = (some e0, e0.folderPath.length) := by
          simp [bestMatchStep, hm, hlen]
        have ih' := ih (some e0, e0.folderPath.length)
          (fun e he => by cases he; exact hm)
          (fun e he => by cases he; rfl)
          (fun hn => by cases hn)
        simp only [List.foldl_cons, hstep]
        refine ⟨?_, ?_, ?_, ih'.2.2.2.1, ?_⟩
        · intro e he
          obtain ⟨hm', hmem⟩ := ih'.1 e he
          refine ⟨hm', Or.inl ?_⟩
          cases hmem with
          | inl h => exact List.mem_cons_of_mem _ h
          | inr h => cases h; exact List.mem_cons_self _ _
        · intro e' he' hm'
          cases he' with
          | head => exact ih'.2.2.1
          | tail _ h => exact ih'.2.1 e' h hm'
        · exact le_trans (le_of_lt hlen) ih'.2.2.1
        · intro hn
          obtain ⟨hc, _⟩ := ih'.2.2.2.2 hn
          cases hc
      · have hstep : bestMatchStep t acc e0 = acc := by
          simp [bestMatchStep, hm, hlen]
        have ih' := ih acc hacc1 hacc2 hacc3
        simp only [List.foldl_cons, hstep]
        refine ⟨?_, ?_, ih'.2.2.1, ih'.2.2.2.1, ?_⟩
        · intro e he
          obtain ⟨hm', hmem⟩ := ih'.1 e he
          exact ⟨hm', hmem.imp (List.mem_cons_of_mem _) id⟩
        · intro e' he' hm'
          cases he' with
          | head =>
            exact le_trans (Nat.le_of_not_lt hlen) ih'.2.2.1
          | tail _ h => exact ih'.2.1 e' h hm'
        · intro hn
          obtain ⟨hc, hrest⟩ := ih'.2.2.2.2 hn
          refine ⟨hc, ?_⟩
          intro e' he' hm'
          cases he' with
          | head =>
            have h0 : acc.2 = 0 := hacc3 hc
            have := Nat.le_of_not_lt hlen
            omega
          | tail _ h => exact hrest e' h hm'
    · have hstep : bestMatchStep t acc e0 = acc := by
        simp [bestMatchStep, hm]
      have ih' := ih acc hacc1 hacc2 hacc3
      simp only [List.foldl_cons, hstep]
      refine ⟨?_, ?_, ih'.2.2.1, ih'.2.2.2.1, ?_⟩
      · intro e he
        obtain ⟨hm', hmem⟩ := ih'.1 e he
        exact ⟨hm', hmem.imp (List.mem_cons_of_mem _) id⟩
      · intro e' he' hm'
        cases he' with
        | head => exact absurd hm' hm
        | tail _ h => exact ih'.2.1 e' h hm'
      · intro hn
        obtain ⟨hc, hrest⟩ := ih'.2.2.2.2 hn
        refine ⟨hc, ?_⟩
        intro e' he' hm'
        cases he' with
        | head => exact absurd hm' hm
        | tail _ h => exact hrest e' h hm'

theorem string_length_zero {s : String} (h : s.length = 0) : s = "" := by
  cases s with
  | mk data =>
    cases data with
    | nil => rfl
    | cons a l => simp [String.length] at h

/-- C6: `isDescendant` is true exactly when some registered entry of the KB
has a folderPath equal to the leading-slash-normalized path or a strict
prefix of it ending at a `/` boundary; `getAncestor` returns a matching
entry of maximal folderPath length, returns one whenever a match exists,
and on the fixture with `/A` and `/A/B` registered the ancestor of
`/A/B/x` is the `/A/B` entry. -/
theorem optimisticFolder_matching_spec (st : Store) (k path : String)
    (hk : k ≠ "") (hp : path ≠ "")
    (hpaths : ∀ e ∈ folderRegistryValues st, e.folderPath ≠ "") :
    (isDescendantOfOptimisticFolder st k path = true ↔
      ∃ e ∈ folderRegistryValues st, e.kbId = k ∧
        (normalizePath path = e.folderPath ∨
          strStartsWith (normalizePath path) (e.folderPath ++ "/") = true)) ∧
    (∀ e, getOptimisticAncestorFolder st k path = some e →
      e ∈ folderRegistryValues st ∧ e.kbId = k ∧
        (normalizePath path = e.folderPath ∨
          strStartsWith (normalizePath path) (e.folderPath ++ "/") = true) ∧
        ∀ e' ∈ folderRegistryValues st, e'.kbId = k →
          (normalizePath path = e'.folderPath ∨
            strStartsWith (normalizePath path) (e'.folderPath ++ "/") = true) →
          e'.folderPath.length ≤ e.folderPath.length) ∧
    ((∃ e ∈ folderRegistryValues st, e.kbId = k ∧
        (normalizePath path = e.folderPath ∨
          strStartsWith (normalizePath path) (e.folderPath ++ "/") = true)) →
      (getOptimisticAncestorFolder st k path).isSome = true) ∧
    getOptimisticAncestorFolder storeTwoFolders "kb1" "/A/B/x" = some entrySlashAB := by
  have hred : isDescendantOfOptimisticFolder st k path =
      ((folderRegistryValues st).filter (fun entry => entry.kbId = k)).any
        (fun entry => entryMatches (normalizePath path) entry) := by
    unfold isDescendantOfOptimisticFolder
    simp [hk, hp]
  have hred2 : getOptimisticAncestorFolder st k path =
      (((folderRegistryValues st).filter (fun entry => entry.kbId = k)).foldl
        (bestMatchStep (normalizePath path)) (none, 0)).1 := by
    unfold getOptimisticAncestorFolder
    simp [hk, hp]
  have spec := bestMatch_fold_spec (normalizePath path)
    ((folderRegistryValues st).filter (fun entry => entry.kbId = k)) (none, 0)
    (fun e he => by cases he) (fun e he => by cases he) (fun _ => rfl)
  refine ⟨?_, ?_, ?_, by decide⟩
  · rw [hred, List.any_eq_true]
    constructor
    · rintro ⟨e, he, hm⟩
      rw [List.mem_filter] at he
      exact ⟨e, he.1, by simpa using he.2, (entryMatches_iff _ _).mp hm⟩
    · rintro ⟨e, he, hkb, hm⟩
      exact ⟨e, List.mem_filter.mpr ⟨he, by simpa using hkb⟩, (entryMatches_iff _ _).mpr hm⟩
  · intro e he
    rw [hred2] at he
    obtain ⟨hm, hmem⟩ := spec.1 e he
    cases hmem with
    | inr h => cases h
    | inl hmem =>
      rw [List.mem_filter] at hmem
      refine ⟨hmem.1, by simpa using hmem.2, (entryMatches_iff _ _).mp hm, ?_⟩
      intro e' he' hkb' hm'
      have he'f : e' ∈ (folderRegistryValues st).filter (fun entry => entry.kbId = k) :=
        List.mem_filter.mpr ⟨he', by simpa using hkb'⟩
      have := spec.2.1 e' he'f ((entryMatches_iff _ _).mpr hm')
      rw [spec.2.2.2.1 e he] at this
      exact this
  · rintro ⟨e, he, hkb, hm⟩
    rw [hred2]
    cases hres : (((folderRegistryValues st).filter (fun entry => entry.kbId = k)).foldl
        (bestMatchStep (normalizePath path)) (none, 0)).1 with
    | some e' => rfl
    | none =>
      exfalso
      obtain ⟨-, hall⟩ := spec.2.2.2.2 hres
      have he'f : e ∈ (folderRegistryValues st).filter (fun entry => entry.kbId = k) :=
        List.mem_filter.mpr ⟨he, by simpa using hkb⟩
      have hlen0 := hall e he'f ((entryMatches_iff _ _).mpr hm)
      exact hpaths e he (string_length_zero hlen0)

/-- Witness for C6 on the two-folder fixture. -/
theorem optimisticFolder_matching_spec_witness :
    ("kb1" : String) ≠ "" ∧
    isDescendantOfOptimisticFolder storeTwoFolders "kb1" "/A/B/x" = true ∧
    (getOptimisticAncestorFolder storeTwoFolders "kb1" "/A/B/x").isSome = true := by
  have h := optimisticFolder_matching_spec storeTwoFolders "kb1" "/A/B/x"
    (by decide) (by decide) (by decide)
  refine ⟨by decide, ?_, ?_⟩
  · exact (h.1).mpr ⟨entrySlashAB, by decide, by decide, by decide⟩
  · exact h.2.2.1 ⟨entrySlashAB, by decide, by decide, by decide⟩

/-- C7: the root poller never polls a temporary KB id; after a refetch it
stops on timeout, on an empty delete-filtered result, on a result without
file-type records, or when every file-type record is settled (indexed or
error) and no folder poller is active — in particular a zero-file first
observation stops immediately — and a cleared `shouldPoll` keeps polling
disabled. -/
theorem rootPoller_stop_spec :
    (∀ (enabled : Bool) (kbId : Option String) (shouldPoll : Bool),
      isTemporaryKB kbId = true → shouldEnablePolling enabled kbId shouldPoll = false) ∧
    (∀ (enabled : Bool) (kbId : Option String),
      shouldEnablePolling enabled kbId false = false) ∧
    (∀ sp reg raw act, rootPollStep sp true reg raw act = false) ∧
    (∀ sp reg raw act, filterPollingResponse reg raw = [] →
      rootPollStep sp false reg raw act = false) ∧
    (∀ sp reg raw act,
      (filterPollingResponse reg raw).filter (fun item => item.ftype = "file") = [] →
      rootPollStep sp false reg raw act = false) ∧
    (∀ sp reg raw,
      (∀ f ∈ filterPollingResponse reg raw, f.ftype = "file" →
        f.status = some "indexed" ∨ f.status = some "error") →
      rootPollStep sp false reg raw false = false) ∧
    (∀ sp reg act, rootPollStep sp false reg [] act = false) := by
  have hempty : ∀ (sp : Bool) reg raw (act : Bool), filterPollingResponse reg raw = [] →
      rootPollStep sp false reg raw act = false := by
    intro sp reg raw act h
    simp [rootPollStep, rootPollDecision, h]
  refine ⟨?_, ?_, ?_, hempty, ?_, ?_, fun sp reg act => hempty sp reg [] act rfl⟩
  · intro enabled kbId shouldPoll h
    simp [shouldEnablePolling, h]
  · intro enabled kbId
    simp [shouldEnablePolling]
  · intro sp reg raw act
    simp [rootPollStep, rootPollDecision]
  · intro sp reg raw act h
    unfold rootPollStep rootPollDecision
    by_cases h1 : (filterPollingResponse reg raw).length = 0
    · simp [h1]
    · simp [h1, h]
  · intro sp reg raw h
    have hun : hasUnsettledFiles (filterPollingResponse reg raw) = false := by
      unfold hasUnsettledFiles
      rw [Bool.or_eq_false_iff]
      constructor <;> rw [List.any_eq_false] <;> intro f hf <;>
        rw [List.mem_filter] at hf <;>
        rcases h f hf.1 (by simpa using hf.2) with hs | hs <;> simp [hs]
    unfold rootPollStep rootPollDecision
    by_cases h1 : (filterPollingResponse reg raw).length = 0
    · simp [h1]
    · by_cases h2 :
        (((filterPollingResponse reg raw).filter (fun item => item.ftype = "file")).length = 0)
      · simp [h1, h2]
      · simp [h1, h2, hun]

/-- Witness for C7: a temp id is never polled, and a refetch that observes
an empty listing stops polling. -/
theorem rootPoller_stop_spec_witness :
    isTemporaryKB (some "temp-9") = true ∧
    shouldEnablePolling true (some "temp-9") true = false ∧
    rootPollStep true false [] [] true = false :=
  ⟨by decide, rootPoller_stop_spec.1 true (some "temp-9") true (by decide),
   rootPoller_stop_spec.2.2.2.2.2.2 true [] true⟩

/-- C9 counterexample: after the root scope has emitted its error
notification, a folder scope that observes failed files emits nothing — the
single shared `hasShownErrorToast` flag gates every scope, so the folder
scope never gets its own notification. -/
theorem errorToast_per_scope_counterexample :
    (checkUnsettledEmit false [errRootItem]).2 = some "kb-error-toast" ∧
    folderHasErrors ["g1"] [failedFolderItem] = true ∧
    (folderErrorEmit (checkUnsettledEmit false [errRootItem]).1 "/A" ["g1"]
      [failedFolderItem]).2 = none := by
  decide

theorem errObsStep_true (o : ErrObs) : errObsStep true o = (true, none) := by
  cases o with
  | root rs => simp [errObsStep, checkUnsettledEmit]
  | folder p exp fs => simp [errObsStep, folderErrorEmit]

theorem runErrObs_true (obs : List ErrObs) : runErrObs true obs = (true, []) := by
  induction obs with
  | nil => rfl
  | cons o rest ih => simp [runErrObs, errObsStep_true, ih]

theorem filter_length_pos_of_any {α : Type} (l : List α) (p : α → Bool)
    (h : l.any p = true) : 0 < (l.filter p).length := by
  obtain ⟨x, hx, hpx⟩ := List.any_eq_true.mp h
  have hmem : x ∈ l.filter p := List.mem_filter.mpr ⟨hx, hpx⟩
  exact List.length_pos.mpr (List.ne_nil_of_mem hmem)

theorem errObsStep_false (o : ErrObs) :
    errObsStep false o =
      (errObsHasErrors o, if errObsHasErrors o then some (errObsToastId o) else none) := by
  cases o with
  | root rs =>
    by_cases h : 0 < (rootErrorFiles rs).length <;>
      simp [errObsStep, checkUnsettledEmit, errObsHasErrors, errObsToastId, h]
  | folder p exp fs =>
    by_cases h : folderHasErrors exp fs = true
    · have hpos := filter_length_pos_of_any exp _ h
      simp only [errObsStep, errObsHasErrors, errObsToastId, folderErrorEmit, h]
      simp [hpos]
    · simp [errObsStep, folderErrorEmit, errObsHasErrors, errObsToastId, h]

/-- C9 amended: error notifications are emitted at most once per KB in
total: the first scope (root or a folder) whose poll observes errored files
emits exactly one notification with its stable toast id, and no scope emits
on any later observation. -/
theorem errorToast_once_per_kb (obs : List ErrObs) :
    (runErrObs false obs).2.length ≤ 1 ∧
    ((∃ o ∈ obs, errObsHasErrors o = true) → (runErrObs false obs).2.length = 1) := by
  induction obs with
  | nil => simp [runErrObs]
  | cons o rest ih =>
    by_cases h : errObsHasErrors o = true
    · have hstep : errObsStep false o = (true, some (errObsToastId o)) := by
        rw [errObsStep_false, h]
        simp
      refine ⟨?_, fun _ => ?_⟩ <;> simp [runErrObs, hstep, runErrObs_true]
    · have hstep : errObsStep false o = (false, none) := by
        rw [errObsStep_false]
        simp [h]
      constructor
      · simpa [runErrObs, hstep] using ih.1
      · rintro ⟨o', ho', he'⟩
        cases ho' with
        | head => exact absurd he' h
        | tail _ hmem =>
          have := ih.2 ⟨o', hmem, he'⟩
          simpa [runErrObs, hstep] using this

/-- Witness for C9's amended claim: a root error observation followed by a
folder error observation yields exactly one notification. -/
theorem errorToast_once_per_kb_witness :
    (∃ o ∈ [ErrObs.root [errRootItem], ErrObs.folder "/A" ["g1"] [failedFolderItem]],
      errObsHasErrors o = true) ∧
    (runErrObs false
      [ErrObs.root [errRootItem], ErrObs.folder "/A" ["g1"] [failedFolderItem]]).2.length = 1 :=
  ⟨⟨ErrObs.root [errRootItem], by simp, by decide⟩,
   (errorToast_once_per_kb _).2 ⟨ErrObs.root [errRootItem], by simp, by decide⟩⟩

theorem restore_fold_proj (kbId : String) (fs : List (String × List FileItem)) (st : Store) :
    (fs.foldl (fun st pd =>
        { st with folderCache := setAssoc st.folderCache (kbId, pd.1) pd.2 }) st).folderCache =
      fs.foldl (fun c pd => setAssoc c (kbId, pd.1) pd.2) st.folderCache ∧
    (fs.foldl (fun st pd =>
        { st with folderCache := setAssoc st.folderCache (kbId, pd.1) pd.2 }) st).rootCache =
      st.rootCache := by
  induction fs generalizing st with
  | nil => exact ⟨rfl, rfl⟩
  | cons pd rest ih =>
    simp only [List.foldl_cons]
    exact ih _

theorem restore_deleteRegistry (snap : CacheSnapshot) (st : Store) :
    (restoreCacheFromStorage snap st).deleteRegistry = snap.optimisticRegistry := by
  unfold restoreCacheFromStorage
  cases snap.rootResources <;> rfl

theorem restore_folderRegistry (snap : CacheSnapshot) (st : Store) :
    (restoreCacheFromStorage snap st).folderRegistry = snap.optimisticFolderRegistry := by
  unfold restoreCacheFromStorage
  cases snap.rootResources <;> rfl

theorem restore_rootCache (snap : CacheSnapshot) (st : Store) :
    (restoreCacheFromStorage snap st).rootCache =
      match snap.rootResources with
      | some r => setAssoc st.rootCache snap.kbId r
      | none => st.rootCache := by
  unfold restoreCacheFromStorage
  cases snap.rootResources with
  | some r => simpa using (restore_fold_proj snap.kbId snap.folderStatuses _).2
  | none => simpa using (restore_fold_proj snap.kbId snap.folderStatuses _).2

theorem restore_folderCache (snap : CacheSnapshot) (st : Store) :
    (restoreCacheFromStorage snap st).folderCache =
      snap.folderStatuses.foldl (fun c pd => setAssoc c (snap.kbId, pd.1) pd.2)
        st.folderCache := by
  unfold restoreCacheFromStorage
  cases snap.rootResources <;> simpa using (restore_fold_proj snap.kbId snap.folderStatuses _).1

theorem lookupA_filterMap_kb (fc : List ((String × String) × List FileItem)) (kbId p : String)
    (h : ∀ e ∈ fc, e.1.1 = kbId) :
    lookupA (fc.filterMap (fun e => if e.1.1 = kbId then some (e.1.2, e.2) else none)) p =
      lookupA fc (kbId, p) := by
  induction fc with
  | nil => rfl
  | cons e rest ih =>
    obtain ⟨⟨k0, p0⟩, d⟩ := e
    have hk0 : k0 = kbId := h _ (List.mem_cons_self _ _)
    subst hk0
    have ih' := ih (fun e he => h e (List.mem_cons_of_mem _ he))
    by_cases hp0 : p0 = p <;> simp [List.filterMap_cons, lookupA, hp0, ih', Prod.ext_iff]

theorem lookupA_foldl_setAssoc_same (kbId : String) (fs : List (String × List FileItem))
    (init : List ((String × String) × List FileItem)) (p : String)
    (hnod : (fs.map Prod.fst).Nodup) :
    lookupA (fs.foldl (fun c pd => setAssoc c (kbId, pd.1) pd.2) init) (kbId, p) =
      match lookupA fs p with
      | some d => some d
      | none => lookupA init (kbId, p) := by
  induction fs generalizing init with
  | nil => simp [lookupA]
  | cons pd rest ih =>
    obtain ⟨p0, d0⟩ := pd
    have hnod' : (rest.map Prod.fst).Nodup := (List.nodup_cons.mp hnod).2
    have hnotin : p0 ∉ rest.map Prod.fst := (List.nodup_cons.mp hnod).1
    simp only [List.foldl_cons]
    rw [ih _ hnod']
    by_cases hp : p0 = p
    · subst hp
      have hrest : lookupA rest p0 = none := by
        apply lookupA_eq_none_of_not_mem_keys
        intro e he heq
        exact hnotin (heq ▸ List.mem_map_of_mem Prod.fst he)
      simp [lookupA, hrest, lookupA_setAssoc_self]
    · have hkey : (kbId, p) ≠ (kbId, p0) := fun hc => hp (congrArg Prod.snd hc).symm
      cases hrest : lookupA rest p <;>
        simp [lookupA, hp, hrest, lookupA_setAssoc_ne _ _ _ _ hkey]

theorem lookupA_foldl_setAssoc_ne (kbId : String) (fs : List (String × List FileItem))
    (init : List ((String × String) × List FileItem)) (k p : String) (hne : k ≠ kbId) :
    lookupA (fs.foldl (fun c pd => setAssoc c (kbId, pd.1) pd.2) init) (k, p) =
      lookupA init (k, p) := by
  induction fs generalizing init with
  | nil => rfl
  | cons pd rest ih =>
    simp only [List.foldl_cons]
    rw [ih, lookupA_setAssoc_ne]
    simp [hne]

theorem resolveFileStatus_congr (st st' : Store)
    (hdel : st'.deleteRegistry = st.deleteRegistry)
    (hfr : st'.folderRegistry = st.folderRegistry)
    (hroot : ∀ a, lookupA st'.rootCache a = lookupA st.rootCache a)
    (hfold : ∀ k p, lookupA st'.folderCache (k, p) = lookupA st.folderCache (k, p))
    (fileId : String) (kbId folderPath : Option String) :
    resolveFileStatus st' fileId kbId folderPath = resolveFileStatus st fileId kbId folderPath := by
  have hdesc : ∀ k p,
      isDescendantOfOptimisticFolder st' k p = isDescendantOfOptimisticFolder st k p := by
    intro k p
    unfold isDescendantOfOptimisticFolder folderRegistryValues
    rw [hfr]
  have hrootf : ∀ k f, rootCacheFind st' k f = rootCacheFind st k f := by
    intro k f
    unfold rootCacheFind
    rw [hroot]
  have hfoldf : ∀ k p f, folderCacheFind st' k p f = folderCacheFind st k p f := by
    intro k p f
    unfold folderCacheFind
    rw [hfold]
  unfold resolveFileStatus
  rw [hdel]
  simp only [hrootf, hfoldf, hdesc]

/-- C8: persisting a state whose caches are all keyed by one kbId, clearing
the live state, and restoring the snapshot yields identical
`resolveFileStatus` results for every (fileId, kbId, folderPath) triple. -/
theorem persistence_roundtrip (st : Store) (kbId : String)
    (h1 : ∀ e ∈ st.rootCache, e.1 = kbId)
    (h2 : ∀ e ∈ st.folderCache, e.1.1 = kbId)
    (h3 : ((persistCacheToStorage st kbId).folderStatuses.map Prod.fst).Nodup) :
    ∀ (fileId : String) (k p : Option String),
      resolveFileStatus (restoreCacheFromStorage (persistCacheToStorage st kbId) emptyStore)
          fileId k p =
        resolveFileStatus st fileId k p := by
  intro fileId k p
  apply resolveFileStatus_congr
  · rw [restore_deleteRegistry]
    rfl
  · rw [restore_folderRegistry]
    rfl
  · intro a
    rw [restore_rootCache]
    simp only [persistCacheToStorage]
    by_cases ha : a = kbId
    · subst ha
      cases hr : lookupA st.rootCache a with
      | some d => simp [emptyStore, setAssoc, lookupA]
      | none => simp [emptyStore, lookupA]
    · have hnone : lookupA st.rootCache a = none := by
        apply lookupA_eq_none_of_not_mem_keys
        intro e he heq
        exact ha (by rw [← heq]; exact h1 e he)
      have ha' : ¬kbId = a := fun hc => ha hc.symm
      cases hr : lookupA st.rootCache kbId with
      | some d => simp [emptyStore, setAssoc, lookupA, ha', hnone]
      | none => simp [emptyStore, lookupA, hnone]
  · intro k' p'
    rw [restore_folderCache]
    simp only [persistCacheToStorage]
    by_cases hk : k' = kbId
    · subst hk
      have h3' : ((st.folderCache.filterMap
          (fun e => if e.1.1 = k' then some (e.1.2, e.2) else none)).map Prod.fst).Nodup := h3
      rw [lookupA_foldl_setAssoc_same k' _ emptyStore.folderCache p' h3']
      rw [lookupA_filterMap_kb st.folderCache k' p' h2]
      cases hc : lookupA st.folderCache (k', p') <;> simp [emptyStore, lookupA]
    · rw [lookupA_foldl_setAssoc_ne _ _ _ _ _ hk]
      have hnone : lookupA st.folderCache (k', p') = none := by
        apply lookupA_eq_none_of_not_mem_keys
        intro e he heq
        have h11 : e.1.1 = k' := by rw [heq]
        exact hk (h11.symm.trans (h2 e he))
      simp [emptyStore, lookupA, hnone]

/-- Witness for C8 on the populated fixture. -/
theorem persistence_roundtrip_witness :
    (∀ e ∈ storeRoundtrip.folderCache, e.1.1 = "kb1") ∧
    resolveFileStatus
        (restoreCacheFromStorage (persistCacheToStorage storeRoundtrip "kb1") emptyStore)
        "f2" (some "kb1") (some "/A") =
      resolveFileStatus storeRoundtrip "f2" (some "kb1") (some "/A") :=
  ⟨by decide,
   persistence_roundtrip storeRoundtrip "kb1" (by decide) (by decide) (by decide)
     "f2" (some "kb1") (some "/A")⟩

/-- C1 (divergence evidence): on a concrete failed creation the rollback
handler does clear the current KB and every temp-keyed cache entry, but it
leaves `SyncState.state = "synced"` (not idle), keeps the temporary id in
`SyncState.kbId` (because `setSyncCompleted("")` passes a falsy id through
`updateSyncState`), and leaves the optimistic folder registry entry for the
temporary id in place. -/
theorem kbCreation_rollback_divergence :
    storeAfterRollback.currentKB = none ∧
    storeAfterRollback.indexedFolders = [] ∧
    lookupA storeAfterRollback.rootCache "temp-1" = none ∧
    storeAfterRollback.folderCache.filter (fun e => e.1.1 = "temp-1") = [] ∧
    storeAfterRollback.sync.state = "synced" ∧
    storeAfterRollback.sync.kbId = some "temp-1" ∧
    (storeAfterRollback.folderRegistry.filter (fun e => e.2.kbId = "temp-1")).length = 1 := by
  decide

theorem mem_setAssoc {α β : Type} [DecidableEq α] (l : List (α × β)) (k : α) (v : β)
    (e : α × β) (h : e ∈ setAssoc l k v) : e ∈ l ∨ e = (k, v) := by
  induction l with
  | nil => exact Or.inr (by simpa [setAssoc] using h)
  | cons x rest ih =>
    obtain ⟨k0, v0⟩ := x
    by_cases hk : k0 = k
    · rw [setAssoc, if_pos hk] at h
      cases h with
      | head => exact Or.inr rfl
      | tail _ hmem => exact Or.inl (List.mem_cons_of_mem _ hmem)
    · rw [setAssoc, if_neg hk] at h
      cases h with
      | head => exact Or.inl (List.mem_cons_self _ _)
      | tail _ hmem =>
        rcases ih hmem with hmem' | heq
        · exact Or.inl (List.mem_cons_of_mem _ hmem')
        · exact Or.inr heq

theorem transferRootCache_proj (st : Store) (tempId kb : String) :
    (transferRootCache st tempId kb).sync = st.sync ∧
    (transferRootCache st tempId kb).queue = st.queue ∧
    (transferRootCache st tempId kb).folderCache = st.folderCache ∧
    (transferRootCache st tempId kb).folderRegistry = st.folderRegistry ∧
    (transferRootCache st tempId kb).currentKB = st.currentKB := by
  unfold transferRootCache
  cases lookupA st.rootCache tempId <;> exact ⟨rfl, rfl, rfl, rfl, rfl⟩

theorem transferRootCache_rootCache (st : Store) (tempId kb : String) (d : List FileItem)
    (h : lookupA st.rootCache tempId = some d) :
    (transferRootCache st tempId kb).rootCache = setAssoc st.rootCache kb d := by
  unfold transferRootCache
  rw [h]

theorem migrateFolderRegistry_proj (st : Store) (tempId kb : String) (r : List String)
    (f : List FileItem) (now : Nat) :
    (migrateFolderRegistry st tempId kb r f now).sync = st.sync ∧
    (migrateFolderRegistry st tempId kb r f now).queue = st.queue ∧
    (migrateFolderRegistry st tempId kb r f now).rootCache = st.rootCache ∧
    (migrateFolderRegistry st tempId kb r f now).folderCache = st.folderCache ∧
    (migrateFolderRegistry st tempId kb r f now).currentKB = st.currentKB := by
  unfold migrateFolderRegistry clearOptimisticFoldersForKB markFoldersAsOptimisticallyIndexed
  by_cases h : (selectedDirectoryIds r f).length > 0 <;> simp [h]

theorem markFolders_mem (st : Store) (kbId : String) (sel : List String)
    (map : List (String × String)) (now : Nat) :
    ∀ e ∈ (markFoldersAsOptimisticallyIndexed st kbId sel map now).folderRegistry,
      e ∈ st.folderRegistry ∨ e.2.kbId = kbId := by
  unfold markFoldersAsOptimisticallyIndexed
  suffices h : ∀ (ids : List String) (entries : List (String × OptimisticFolderEntry)),
      (∀ e ∈ entries, e ∈ st.folderRegistry ∨ e.2.kbId = kbId) →
      ∀ e ∈ ids.foldl (fun entries folderId =>
          match lookupA map folderId with
          | some folderName =>
            setAssoc entries (kbId ++ "-" ++ folderId)
              { kbId := kbId, folderId := folderId,
                folderPath := getFolderPathFromName folderName,
                createdAt := now, rootFolderIds := sel }
          | none => entries) entries,
        e ∈ st.folderRegistry ∨ e.2.kbId = kbId by
    exact h sel st.folderRegistry (fun e he => Or.inl he)
  intro ids
  induction ids with
  | nil => intro entries hinv e he; exact hinv e he
  | cons i rest ih =>
    intro entries hinv e he
    simp only [List.foldl_cons] at he
    cases hl : lookupA map i with
    | none =>
      rw [hl] at he
      exact ih entries hinv e he
    | some name =>
      rw [hl] at he
      refine ih _ ?_ e he
      intro e' he'
      rcases mem_setAssoc _ _ _ e' he' with hmem | heq
      · exact hinv e' hmem
      · subst heq
        exact Or.inr rfl

theorem clearOptimistic_no_temp (st : Store) (tempId : String) :
    ∀ e ∈ (clearOptimisticFoldersForKB st tempId).folderRegistry, ¬e.2.kbId = tempId := by
  intro e he
  unfold clearOptimisticFoldersForKB at he
  simp only [List.mem_filter] at he
  simpa using he.2

theorem migrateFolderRegistry_no_temp (st : Store) (tempId kb : String) (r : List String)
    (f : List FileItem) (now : Nat) (hne : tempId ≠ kb)
    (hreg : (∃ e ∈ st.folderRegistry, e.2.kbId = tempId) → selectedDirectoryIds r f ≠ []) :
    ∀ e ∈ (migrateFolderRegistry st tempId kb r f now).folderRegistry, e.2.kbId ≠ tempId := by
  intro e he
  unfold migrateFolderRegistry at he
  by_cases hsel : (selectedDirectoryIds r f).length > 0
  · rw [if_pos hsel] at he
    rcases markFolders_mem _ _ _ _ _ e he with hmem | hkb
    · exact clearOptimistic_no_temp st tempId e hmem
    · exact fun hc => hne (hc.symm.trans hkb)
  · rw [if_neg hsel] at he
    intro hc
    have hnil : selectedDirectoryIds r f = [] := by
      cases hs : selectedDirectoryIds r f with
      | nil => rfl
      | cons a l => rw [hs] at hsel; simp at hsel
    exact hreg ⟨e, he, hc⟩ hnil

theorem selectedDirectoryIds_find (r : List String) (f : List FileItem) (fid : String)
    (h : fid ∈ selectedDirectoryIds r f) :
    ∃ item, f.find? (fun x => x.id = fid) = some item ∧ item.ftype = "directory" := by
  unfold selectedDirectoryIds at h
  rw [List.mem_filter] at h
  cases hfind : f.find? (fun x => x.id = fid) with
  | none =>
    rw [hfind] at h
    simp at h
  | some item =>
    rw [hfind] at h
    exact ⟨item, rfl, by simpa using h.2⟩

theorem folderNameMap_lookup (sel : List String) (files : List FileItem) (fid : String)
    (hf : fid ∈ sel) (item : FileItem)
    (hitem : files.find? (fun f => f.id = fid) = some item) :
    lookupA (sel.filterMap (fun folderId =>
        (files.find? (fun f => f.id = folderId)).map (fun f => (folderId, f.name)))) fid =
      some item.name ∨
    ∃ item2 : FileItem,
      lookupA (sel.filterMap (fun folderId =>
        (files.find? (fun f => f.id = folderId)).map (fun f => (folderId, f.name)))) fid =
      some item2.name := by
  induction sel with
  | nil => cases hf
  | cons s rest ih =>
    by_cases hs : s = fid
    · subst hs
      left
      simp [List.filterMap_cons, hitem, lookupA]
    · have hmem : fid ∈ rest := by
        cases hf with
        | head => exact absurd rfl hs
        | tail _ hm => exact hm
      cases hfind : files.find? (fun f => f.id = s) with
      | none =>
        rcases ih hmem with hl | ⟨it2, hl⟩
        · left
          simpa [List.filterMap_cons, hfind] using hl
        · right
          exact ⟨it2, by simpa [List.filterMap_cons, hfind] using hl⟩
      | some it0 =>
        rcases ih hmem with hl | ⟨it2, hl⟩
        · left
          simpa [List.filterMap_cons, hfind, lookupA, hs] using hl
        · right
          exact ⟨it2, by simpa [List.filterMap_cons, hfind, lookupA, hs] using hl⟩

theorem markFolders_fold_lookup (kbId : String) (map : List (String × String)) (now : Nat)
    (fullSel : List String) (sel : List String) :
    ∀ (entries : List (String × OptimisticFolderEntry)) (fid : String),
      ((fid ∈ sel ∧ (lookupA map fid).isSome = true) ∨
        (∃ e, lookupA entries (kbId ++ "-" ++ fid) = some e ∧ e.kbId = kbId)) →
      ∃ e, lookupA (sel.foldl (fun entries folderId =>
          match lookupA map folderId with
          | some folderName =>
            setAssoc entries (kbId ++ "-" ++ folderId)
              { kbId := kbId, folderId := folderId,
                folderPath := getFolderPathFromName folderName,
                createdAt := now, rootFolderIds := fullSel }
          | none => entries) entries) (kbId ++ "-" ++ fid) = some e ∧ e.kbId = kbId := by
  induction sel with
  | nil =>
    intro entries fid h
    rcases h with ⟨hmem, -⟩ | h
    · cases hmem
    · exact h
  | cons s rest ih =>
    intro entries fid h
    simp only [List.foldl_cons]
    cases hl : lookupA map s with
    | none =>
      refine ih entries fid ?_
      rcases h with ⟨hmem, hsome⟩ | h
      · cases hmem with
        | head => rw [hl] at hsome; simp at hsome
        | tail _ hm => exact Or.inl ⟨hm, hsome⟩
      · exact Or.inr h
    | some name =>
      refine ih _ fid ?_
      rcases h with ⟨hmem, hsome⟩ | h
      · cases hmem with
        | head =>
          right
          exact ⟨_, lookupA_setAssoc_self _ _ _, rfl⟩
        | tail _ hm => exact Or.inl ⟨hm, hsome⟩
      · right
        obtain ⟨e, he, hekb⟩ := h
        by_cases hkey : (kbId ++ "-" ++ fid) = (kbId ++ "-" ++ s)
        · rw [hkey]
          exact ⟨_, lookupA_setAssoc_self _ _ _, rfl⟩
        · rw [lookupA_setAssoc_ne _ _ _ _ hkey]
          exact ⟨e, he, hekb⟩

theorem markFolders_lookup (st : Store) (kbId : String) (sel : List String)
    (map : List (String × String)) (now : Nat) (fid : String)
    (hfid : fid ∈ sel) (hname : (lookupA map fid).isSome = true) :
    ∃ e, lookupA (markFoldersAsOptimisticallyIndexed st kbId sel map now).folderRegistry
        (kbId ++ "-" ++ fid) = some e ∧ e.kbId = kbId := by
  unfold markFoldersAsOptimisticallyIndexed
  exact markFolders_fold_lookup kbId map now sel sel st.folderRegistry fid
    (Or.inl ⟨hfid, hname⟩)

theorem migrateFolderRegistry_marks (st : Store) (tempId kb : String) (r : List String)
    (f : List FileItem) (now : Nat) (fid : String)
    (hfid : fid ∈ selectedDirectoryIds r f) :
    ∃ e, lookupA (migrateFolderRegistry st tempId kb r f now).folderRegistry
        (kb ++ "-" ++ fid) = some e ∧ e.kbId = kb := by
  have hsel : (selectedDirectoryIds r f).length > 0 :=
    List.length_pos.mpr (List.ne_nil_of_mem hfid)
  unfold migrateFolderRegistry
  rw [if_pos hsel]
  obtain ⟨item, hitem, -⟩ := selectedDirectoryIds_find r f fid hfid
  have hname : (lookupA ((selectedDirectoryIds r f).filterMap (fun folderId =>
      (f.find? (fun x => x.id = folderId)).map (fun x => (folderId, x.name)))) fid).isSome =
      true := by
    rcases folderNameMap_lookup (selectedDirectoryIds r f) f fid hfid item hitem with hl | ⟨_, hl⟩ <;>
      rw [hl] <;> rfl
  exact markFolders_lookup _ kb _ _ now fid hfid hname

theorem transferFolderCaches_proj (st : Store) (tempId kb : String)
    (ff : List (String × String × List String)) :
    (transferFolderCaches st tempId kb ff).sync = st.sync ∧
    (transferFolderCaches st tempId kb ff).queue = st.queue ∧
    (transferFolderCaches st tempId kb ff).rootCache = st.rootCache ∧
    (transferFolderCaches st tempId kb ff).folderRegistry = st.folderRegistry ∧
    (transferFolderCaches st tempId kb ff).currentKB = st.currentKB := by
  induction ff generalizing st with
  | nil => exact ⟨rfl, rfl, rfl, rfl, rfl⟩
  | cons e rest ih =>
    unfold transferFolderCaches at ih ⊢
    simp only [List.foldl_cons]
    cases hm : lookupA st.folderCache (tempId, e.2.1) with
    | none => exact ih st
    | some d => exact ih _

theorem transferFolderCaches_temp_lookup (st : Store) (tempId kb : String)
    (hne : tempId ≠ kb) (ff : List (String × String × List String)) (q : String) :
    lookupA (transferFolderCaches st tempId kb ff).folderCache (tempId, q) =
      lookupA st.folderCache (tempId, q) := by
  induction ff generalizing st with
  | nil => rfl
  | cons e rest ih =>
    unfold transferFolderCaches at ih ⊢
    simp only [List.foldl_cons]
    cases hm : lookupA st.folderCache (tempId, e.2.1) with
    | none => exact ih st
    | some d =>
      rw [ih _]
      exact lookupA_setAssoc_ne _ _ _ _ (fun hc => hne (congrArg Prod.fst hc))

theorem transferFolderCaches_sets (st : Store) (tempId kb : String) (hne : tempId ≠ kb)
    (ff : List (String × String × List String)) (p : String) (v : List FileItem)
    (hv : lookupA st.folderCache (tempId, p) = some v)
    (hcov : lookupA st.folderCache (kb, p) = some v ∨ ∃ e ∈ ff, e.2.1 = p) :
    lookupA (transferFolderCaches st tempId kb ff).folderCache (kb, p) = some v := by
  induction ff generalizing st with
  | nil =>
    rcases hcov with h | ⟨e, he, -⟩
    · exact h
    · cases he
  | cons e rest ih =>
    unfold transferFolderCaches at ih ⊢
    simp only [List.foldl_cons]
    by_cases hp : e.2.1 = p
    · rw [show lookupA st.folderCache (tempId, e.2.1) = some v from hp.symm ▸ hv]
      refine ih _ ?_ ?_
      · rw [lookupA_setAssoc_ne _ _ _ _ (fun hc => hne (congrArg Prod.fst hc))]
        exact hv
      · left
        rw [hp, lookupA_setAssoc_self]
    · cases hm : lookupA st.folderCache (tempId, e.2.1) with
      | none =>
        refine ih st hv ?_
        rcases hcov with h | ⟨e', he', hpe⟩
        · exact Or.inl h
        · cases he' with
          | head => exact absurd hpe hp
          | tail _ hmem => exact Or.inr ⟨e', hmem, hpe⟩
      | some d =>
        refine ih _ ?_ ?_
        · rw [lookupA_setAssoc_ne _ _ _ _ (fun hc => hne (congrArg Prod.fst hc))]
          exact hv
        · rcases hcov with h | ⟨e', he', hpe⟩
          · left
            have hkey : (kb, p) ≠ (kb, e.2.1) :=
              fun hc => hp (congrArg Prod.snd hc).symm
            rw [lookupA_setAssoc_ne _ _ _ _ hkey]
            exact h
          · cases he' with
            | head => exact absurd hpe hp
            | tail _ hmem => exact Or.inr ⟨e', hmem, hpe⟩

theorem removeTempCaches_proj (st : Store) (tempId : String) :
    (removeTempCaches st tempId).sync = st.sync ∧
    (removeTempCaches st tempId).queue = st.queue ∧
    (removeTempCaches st tempId).folderRegistry = st.folderRegistry ∧
    (removeTempCaches st tempId).currentKB = st.currentKB ∧
    (removeTempCaches st tempId).rootCache = eraseA st.rootCache tempId := by
  exact ⟨rfl, rfl, rfl, rfl, rfl⟩

theorem removeTempCaches_folderCache_temp (st : Store) (tempId : String) (q : String) :
    lookupA (removeTempCaches st tempId).folderCache (tempId, q) = none := by
  apply lookupA_eq_none_of_not_mem_keys
  intro e he heq
  unfold removeTempCaches at he
  simp only [List.mem_filter] at he
  have : e.1.1 ≠ tempId := by simpa using he.2
  exact this (by rw [heq])

theorem lookupA_filter_fst (tempId k q : String) (l : List ((String × String) × List FileItem))
    (hk : k ≠ tempId) :
    lookupA (l.filter (fun e => !(e.1.1 = tempId))) (k, q) = lookupA l (k, q) := by
  induction l with
  | nil => rfl
  | cons e rest ih =>
    obtain ⟨⟨k0, q0⟩, d⟩ := e
    by_cases h0 : k0 = tempId
    · subst h0
      have hcond : ¬(k0 = k ∧ q0 = q) := fun hc => hk hc.1.symm
      simp [List.filter, lookupA, hcond, ih]
    · by_cases hkey : (k0, q0) = (k, q) <;> simp [List.filter, h0, lookupA, hkey, ih]

theorem removeTempCaches_folderCache_keep (st : Store) (tempId k q : String)
    (hk : k ≠ tempId) :
    lookupA (removeTempCaches st tempId).folderCache (k, q) =
      lookupA st.folderCache (k, q) := by
  unfold removeTempCaches
  exact lookupA_filter_fst tempId k q st.folderCache hk

/-- C3: a successful creation migrates all temp-keyed state to the real id:
sync becomes Synced under the real id, the root cache and every populated
folder-status cache are present under the real id and absent under the temp
id, every queued delete request that referenced the temp id is rewritten to
the real id, and the optimistic folder registry holds the selected folders
under the real id only. -/
theorem kbCreation_success_migration (st : Store) (kb : String) (resourceIds : List String)
    (files : List FileItem) (context : KBCreationContext) (now : Nat)
    (hne : context.optimisticKBId ≠ kb) (hkb : kb ≠ "")
    (hroot : (lookupA st.rootCache context.optimisticKBId).isSome = true)
    (hcov : ∀ e ∈ st.folderCache, e.1.1 = context.optimisticKBId →
      ∃ ff ∈ context.folderFiles, ff.2.1 = e.1.2)
    (hreg : (∃ e ∈ st.folderRegistry, e.2.kbId = context.optimisticKBId) →
      selectedDirectoryIds resourceIds files ≠ []) :
    (kbCreationOnSuccess st kb resourceIds files context now).sync.state = "synced" ∧
    (kbCreationOnSuccess st kb resourceIds files context now).sync.kbId = some kb ∧
    lookupA (kbCreationOnSuccess st kb resourceIds files context now).rootCache kb =
      lookupA st.rootCache context.optimisticKBId ∧
    lookupA (kbCreationOnSuccess st kb resourceIds files context now).rootCache
      context.optimisticKBId = none ∧
    (∀ p, (lookupA st.folderCache (context.optimisticKBId, p)).isSome = true →
      lookupA (kbCreationOnSuccess st kb resourceIds files context now).folderCache (kb, p) =
        lookupA st.folderCache (context.optimisticKBId, p)) ∧
    (∀ p, lookupA (kbCreationOnSuccess st kb resourceIds files context now).folderCache
        (context.optimisticKBId, p) = none) ∧
    (kbCreationOnSuccess st kb resourceIds files context now).queue =
      st.queue.map (fun request =>
        if request.kbId = context.optimisticKBId then { request with kbId := kb }
        else request) ∧
    (∀ r ∈ (kbCreationOnSuccess st kb resourceIds files context now).queue,
      r.kbId ≠ context.optimisticKBId) ∧
    (∀ e ∈ (kbCreationOnSuccess st kb resourceIds files context now).folderRegistry,
      e.2.kbId ≠ context.optimisticKBId) ∧
    (∀ fid ∈ selectedDirectoryIds resourceIds files,
      ∃ e, lookupA (kbCreationOnSuccess st kb resourceIds files context now).folderRegistry
        (kb ++ "-" ++ fid) = some e ∧ e.kbId = kb) := by
  obtain ⟨rv, hrv⟩ : ∃ v, lookupA st.rootCache context.optimisticKBId = some v := by
    cases h : lookupA st.rootCache context.optimisticKBId with
    | some v => exact ⟨v, rfl⟩
    | none => rw [h] at hroot; simp at hroot
  set s3 : Store :=
    { updateQueueKBId (setSyncCompleted st kb) context.optimisticKBId kb with
      currentKB := some kb } with hs3
  set s4 := transferRootCache s3 context.optimisticKBId kb with hs4
  set s5 := migrateFolderRegistry s4 context.optimisticKBId kb resourceIds files now with hs5
  set s6 := transferFolderCaches s5 context.optimisticKBId kb context.folderFiles with hs6
  set s7 := removeTempCaches s6 context.optimisticKBId with hs7
  have hst' : kbCreationOnSuccess st kb resourceIds files context now =
      { s7 with indexedFolders := context.folderFiles.map (fun e => (e.2.1, e.2.2)) } := rfl
  have h4 := transferRootCache_proj s3 context.optimisticKBId kb
  have h5 := migrateFolderRegistry_proj s4 context.optimisticKBId kb resourceIds files now
  have h6 := transferFolderCaches_proj s5 context.optimisticKBId kb context.folderFiles
  have h7 := removeTempCaches_proj s6 context.optimisticKBId
  rw [← hs4] at h4
  rw [← hs5] at h5
  rw [← hs6] at h6
  rw [← hs7] at h7
  have h3sync : s3.sync = updateSyncStateData st.sync "synced" (some kb) := by
    rw [hs3]
    rfl
  have h3queue : s3.queue = st.queue.map (fun request =>
      if request.kbId = context.optimisticKBId then { request with kbId := kb }
      else request) := by
    rw [hs3]
    rfl
  have h3root : s3.rootCache = st.rootCache := by rw [hs3]; rfl
  have h3fc : s3.folderCache = st.folderCache := by rw [hs3]; rfl
  have h3fr : s3.folderRegistry = st.folderRegistry := by rw [hs3]; rfl
  have hsync : s7.sync = updateSyncStateData st.sync "synced" (some kb) := by
    rw [h7.1, h6.1, h5.1, h4.1, h3sync]
  have hqueue : s7.queue = st.queue.map (fun request =>
      if request.kbId = context.optimisticKBId then { request with kbId := kb }
      else request) := by
    rw [h7.2.1, h6.2.1, h5.2.1, h4.2.1, h3queue]
  have hrootCache : s7.rootCache =
      eraseA (setAssoc st.rootCache kb rv) context.optimisticKBId := by
    rw [h7.2.2.2.2, h6.2.2.1, h5.2.2.1, hs4,
      transferRootCache_rootCache s3 context.optimisticKBId kb rv hrv, h3root]
  have hfr5 : s7.folderRegistry = s5.folderRegistry := by
    rw [h7.2.2.1, h6.2.2.2.1]
  have hfr4 : s4.folderRegistry = st.folderRegistry := by rw [h4.2.2.2.1, h3fr]
  refine ⟨?_, ?_, ?_, ?_, ?_, ?_, ?_, ?_, ?_, ?_⟩
  · rw [hst']
    show s7.sync.state = "synced"
    rw [hsync]
    rfl
  · rw [hst']
    show s7.sync.kbId = some kb
    rw [hsync]
    simp [updateSyncStateData, strTruthy, hkb]
  · rw [hst']
    show lookupA s7.rootCache kb = _
    rw [hrootCache, lookupA_eraseA_ne _ _ _ (fun hc => hne hc.symm),
      lookupA_setAssoc_self, hrv]
  · rw [hst']
    show lookupA s7.rootCache context.optimisticKBId = none
    rw [hrootCache, lookupA_eraseA_self]
  · intro p hp
    obtain ⟨v, hv⟩ : ∃ v, lookupA st.folderCache (context.optimisticKBId, p) = some v := by
      cases h : lookupA st.folderCache (context.optimisticKBId, p) with
      | some v => exact ⟨v, rfl⟩
      | none => rw [h] at hp; simp at hp
    rw [hst']
    show lookupA s7.folderCache (kb, p) = _
    rw [hv, hs7, removeTempCaches_folderCache_keep s6 _ kb p (fun hc => hne hc.symm), hs6]
    apply transferFolderCaches_sets s5 context.optimisticKBId kb hne context.folderFiles p v
    · have h5fc : s5.folderCache = st.folderCache := by
        rw [h5.2.2.2.1, h4.2.2.1, h3fc]
      rw [h5fc]
      exact hv
    · right
      obtain ⟨e, he, hekey, -⟩ := lookupA_isSome_mem st.folderCache
        (context.optimisticKBId, p) hp
      obtain ⟨ff, hff, hffp⟩ := hcov e he (by rw [hekey])
      refine ⟨ff, hff, ?_⟩
      rw [hffp, hekey]
  · intro p
    rw [hst']
    show lookupA s7.folderCache (context.optimisticKBId, p) = none
    rw [hs7]
    exact removeTempCaches_folderCache_temp s6 context.optimisticKBId p
  · rw [hst']
    show s7.queue = _
    exact hqueue
  · intro r hr
    rw [hst'] at hr
    have hr7 : r ∈ s7.queue := hr
    rw [hqueue] at hr7
    obtain ⟨r0, hr0, rfl⟩ := List.mem_map.mp hr7
    by_cases h : r0.kbId = context.optimisticKBId
    · rw [if_pos h]
      exact fun hc => hne hc.symm
    · rw [if_neg h]
      exact h
  · intro e he
    rw [hst'] at he
    have he7 : e ∈ s7.folderRegistry := he
    rw [hfr5, hs5] at he7
    refine migrateFolderRegistry_no_temp s4 context.optimisticKBId kb resourceIds files now
      hne ?_ e he7
    intro hex
    rw [hfr4] at hex
    exact hreg hex
  · intro fid hfid
    have hmk := migrateFolderRegistry_marks s4 context.optimisticKBId kb resourceIds files
      now fid hfid
    rw [← hs5] at hmk
    obtain ⟨e, hel, hekb⟩ := hmk
    refine ⟨e, ?_, hekb⟩
    rw [hst']
    show lookupA s7.folderRegistry (kb ++ "-" ++ fid) = some e
    rw [hfr5]
    exact hel

/-- Witness for C3: the fixture's optimistic phase followed by a successful
commit under the real id `kb-real`. -/
theorem kbCreation_success_migration_witness :
    kbCreationPendingRun.2.optimisticKBId ≠ "kb-real" ∧
    (kbCreationOnSuccess kbCreationPendingRun.1 "kb-real" ["dirA"] kbCreationFiles
      kbCreationPendingRun.2 9).sync.kbId = some "kb-real" ∧
    lookupA (kbCreationOnSuccess kbCreationPendingRun.1 "kb-real" ["dirA"] kbCreationFiles
      kbCreationPendingRun.2 9).rootCache kbCreationPendingRun.2.optimisticKBId = none :=
  ⟨by decide,
   (kbCreation_success_migration kbCreationPendingRun.1 "kb-real" ["dirA"] kbCreationFiles
     kbCreationPendingRun.2 9 (by decide) (by decide) (by decide) (by decide)
     (by decide)).2.1,
   (kbCreation_success_migration kbCreationPendingRun.1 "kb-real" ["dirA"] kbCreationFiles
     kbCreationPendingRun.2 9 (by decide) (by decide) (by decide) (by decide)
     (by decide)).2.2.2.1⟩

end StackAI
